import Mathlib

/-!
Verification development for the PDN harvester (`src/pdn/harvesters.py` and the
PostgREST client in `nexus/utils.py`): a shallow embedding of the offset
virtualization over five remote collections, the per-type filter builders,
the record reconcilers, and composite-id handling, together with theorems
about the testable properties of the design document.
-/

/-- Model of a JSON scalar value as found in raw remote records. -/
inductive JsonValue where
  | str (s : String)
  | num (n : Int)
  | bool (b : Bool)
  | null
deriving DecidableEq, Repr

/-- Python exceptions that the harvester code can raise. -/
inductive PyErr where
  | keyError
  | valueError
  | typeError
  | multipleObjectsReturned
deriving DecidableEq, Repr

/-- A raw remote record: a JSON object modelled as an association list with
unique keys (first match wins, as in a Python dict). -/
def RawRecord : Type := List (String × JsonValue)

instance : DecidableEq RawRecord := by unfold RawRecord; infer_instance

/-- Model of Python `record.get(key)` returning an optional value. -/
def rawLookup (r : RawRecord) (k : String) : Option JsonValue :=
  (r.find? (fun p => p.1 == k)).map (fun p => p.2)

/-- Model of Python `record.get(key, default)`. -/
def rawGetD (r : RawRecord) (k : String) (d : JsonValue) : JsonValue :=
  (rawLookup r k).getD d

/-- Model of Python `record[key]`: raises `KeyError` when the key is absent. -/
def rawIndex (r : RawRecord) (k : String) : Except PyErr JsonValue :=
  match rawLookup r k with
  | some v => .ok v
  | none => .error .keyError

/-- Whether a raw record has a given key. -/
def hasKey (r : RawRecord) (k : String) : Bool :=
  (rawLookup r k).isSome

/-- Decimal digit character, as produced by Python `str` on integers. -/
def digitChar (d : Nat) : Char :=
  if d = 0 then '0'
  else if d = 1 then '1'
  else if d = 2 then '2'
  else if d = 3 then '3'
  else if d = 4 then '4'
  else if d = 5 then '5'
  else if d = 6 then '6'
  else if d = 7 then '7'
  else if d = 8 then '8'
  else '9'

/-- Numeric value of a decimal digit character. -/
def digitVal (c : Char) : Nat := c.toNat - 48

/-- Whether a character is a decimal digit. -/
def isDigitChar (c : Char) : Bool := 48 ≤ c.toNat && c.toNat ≤ 57

/-- Accumulator-based decimal rendering of a positive natural number, with
an explicit fuel argument for structural recursion (fuel at least the number
suffices). -/
def natDigitsGo (fuel : Nat) (n : Nat) (acc : List Char) : List Char :=
  match fuel with
  | 0 => acc
  | fuel + 1 => if n = 0 then acc else natDigitsGo fuel (n / 10) (digitChar (n % 10) :: acc)

/-- Decimal rendering of a natural number, modelling Python `str` on
nonnegative integers. -/
def natStr (n : Nat) : String :=
  if n = 0 then "0" else String.mk (natDigitsGo n n [])

/-- Model of Python `str` on an `int` (adds a leading minus sign when
negative). -/
def pyIntStr (n : Int) : String :=
  if n < 0 then "-" ++ natStr n.natAbs else natStr n.toNat

/-- Value of a list of decimal digit characters, most significant first. -/
def charsVal (cs : List Char) : Nat :=
  cs.foldl (fun a c => a * 10 + digitVal c) 0

/-- Character-level body of the model of Python `int(text)`. -/
def pyIntChars : List Char → Except PyErr Int
  | [] => .error .valueError
  | c :: rest =>
      if c == '-' then
        if rest ≠ [] && rest.all isDigitChar then .ok (-(charsVal rest : Int))
        else .error .valueError
      else if c == '+' then
        if rest ≠ [] && rest.all isDigitChar then .ok (charsVal rest : Int)
        else .error .valueError
      else
        if (c :: rest).all isDigitChar then .ok (charsVal (c :: rest) : Int)
        else .error .valueError

/-- Model of Python `int(text)`: an optional sign followed by at least one
decimal digit; anything else raises `ValueError`. -/
def pyInt (s : String) : Except PyErr Int :=
  pyIntChars s.data

/-- Model of Python `str` on a JSON value, as used in f-string interpolation. -/
def pyStr (v : JsonValue) : String :=
  match v with
  | .str s => s
  | .num n => pyIntStr n
  | .bool true => "True"
  | .bool false => "False"
  | .null => "None"

/-- Python truthiness of a JSON value, as used by `or` chains and `if`. -/
def pyTruthy (v : JsonValue) : Bool :=
  match v with
  | .str s => !(s == "")
  | .num n => !(n == 0)
  | .bool b => b
  | .null => false

/-- Model of Python `a or b` restricted to JSON values. -/
def pyOr (a b : JsonValue) : JsonValue :=
  if pyTruthy a then a else b

/-- Model of Python `text[:n]`: keep at most the first `n` characters. -/
def pyTrunc (s : String) (n : Nat) : String := String.mk (s.data.take n)

/-- The tail component of Python `text.rpartition("-")`: the part after the
last occurrence of the separator, or the whole string when absent. -/
def rpartitionTail (s : String) : String :=
  String.mk ((s.data.reverse.takeWhile (fun c => !(c == '-'))).reverse)

/-- The head component of Python `text.rpartition("-")`: the part before the
last occurrence of the separator, or the empty string when absent. -/
def rpartitionHead (s : String) : String :=
  match s.data.reverse.dropWhile (fun c => !(c == '-')) with
  | [] => ""
  | _ :: rest => String.mk rest.reverse

/-- Model of a Python `datetime.datetime`: calendar fields, microseconds and
an optional UTC offset in minutes (`none` means a naive datetime). -/
structure PyDatetime where
  year : Int
  month : Nat
  day : Nat
  hour : Nat
  minute : Nat
  second : Nat
  microsecond : Nat
  utcoffset_minutes : Option Int
deriving DecidableEq, Repr

/-- Days from civil date (proleptic Gregorian calendar, epoch 1970-01-01). -/
def daysFromCivil (y : Int) (m : Nat) (d : Nat) : Int :=
  let y1 : Int := if m ≤ 2 then y - 1 else y
  let era : Int := Int.fdiv y1 400
  let yoe : Int := y1 - era * 400
  let mp : Int := if m ≤ 2 then (m : Int) + 9 else (m : Int) - 3
  let doy : Int := (153 * mp + 2) / 5 + (d : Int) - 1
  let doe : Int := yoe * 365 + yoe / 4 - yoe / 100 + doy
  era * 146097 + doe - 719468

/-- Civil date from days since epoch 1970-01-01 (proleptic Gregorian). -/
def civilFromDays (z0 : Int) : Int × Nat × Nat :=
  let z : Int := z0 + 719468
  let era : Int := Int.fdiv z 146097
  let doe : Int := z - era * 146097
  let yoe : Int := (doe - doe / 1460 + doe / 36524 - doe / 146096) / 365
  let y : Int := yoe + era * 400
  let doy : Int := doe - (365 * yoe + yoe / 4 - yoe / 100)
  let mp : Int := (5 * doy + 2) / 153
  let d : Int := doy - (153 * mp + 2) / 5 + 1
  let m : Int := if mp < 10 then mp + 3 else mp - 9
  (if m ≤ 2 then y + 1 else y, m.toNat, d.toNat)

/-- Model of `datetime.astimezone(datetime.timezone.utc)`: shift an aware
datetime to UTC.  A naive datetime is interpreted as UTC (modelling
assumption: the host local timezone is UTC). -/
def astimezoneUtc (dt : PyDatetime) : PyDatetime :=
  match dt.utcoffset_minutes with
  | none =>
      ⟨dt.year, dt.month, dt.day, dt.hour, dt.minute, dt.second, dt.microsecond, some 0⟩
  | some off =>
      let total : Int := daysFromCivil dt.year dt.month dt.day * 86400 +
        (dt.hour : Int) * 3600 + (dt.minute : Int) * 60 + (dt.second : Int) - off * 60
      let days : Int := Int.fdiv total 86400
      let rem : Nat := (total - days * 86400).toNat
      let c := civilFromDays days
      ⟨c.1, c.2.1, c.2.2, rem / 3600, rem % 3600 / 60, rem % 60, dt.microsecond, some 0⟩

/-- Model of `datetime.replace(microsecond=0)`. -/
def replaceMicrosecondZero (dt : PyDatetime) : PyDatetime :=
  ⟨dt.year, dt.month, dt.day, dt.hour, dt.minute, dt.second, 0, dt.utcoffset_minutes⟩

/-- Left-pad a decimal rendering with zeros to the given width. -/
def padNat (width : Nat) (n : Nat) : String :=
  let s := natStr n
  String.mk (List.replicate (width - s.data.length) '0') ++ s

/-- Model of `datetime.isoformat()` for our datetime model. -/
def isoformat (dt : PyDatetime) : String :=
  (if dt.year < 0 then "-" ++ padNat 4 dt.year.natAbs else padNat 4 dt.year.toNat) ++
  "-" ++ padNat 2 dt.month ++ "-" ++ padNat 2 dt.day ++
  "T" ++ padNat 2 dt.hour ++ ":" ++ padNat 2 dt.minute ++ ":" ++ padNat 2 dt.second ++
  (if dt.microsecond = 0 then "" else "." ++ padNat 6 dt.microsecond) ++
  (match dt.utcoffset_minutes with
   | none => ""
   | some off =>
       (if off < 0 then "-" else "+") ++
       padNat 2 (off.natAbs / 60) ++ ":" ++ padNat 2 (off.natAbs % 60))

/-- Model of Python `text.split("+")[0]`: the prefix before the first plus
sign (the whole string when there is none). -/
def pySplitPlusHead (s : String) : String :=
  String.mk (s.data.takeWhile (fun c => !(c == '+')))

/-- Parse exactly two decimal digits. -/
def parse2Digits (cs : List Char) : Option (Nat × List Char) :=
  match cs with
  | c1 :: c2 :: rest =>
      if isDigitChar c1 && isDigitChar c2 then
        some (digitVal c1 * 10 + digitVal c2, rest)
      else none
  | _ => none

/-- Parse exactly four decimal digits. -/
def parse4Digits (cs : List Char) : Option (Nat × List Char) :=
  match cs with
  | c1 :: c2 :: c3 :: c4 :: rest =>
      if isDigitChar c1 && isDigitChar c2 && isDigitChar c3 && isDigitChar c4 then
        some (digitVal c1 * 1000 + digitVal c2 * 100 + digitVal c3 * 10 + digitVal c4, rest)
      else none
  | _ => none

/-- Parse an optional trailing UTC-offset designator: nothing (naive),
a terminal Z, or a sign followed by HH:MM. -/
def parseTzSuffix (cs : List Char) : Option (Option Int) :=
  match cs with
  | [] => some none
  | ['Z'] => some (some 0)
  | ['z'] => some (some 0)
  | '+' :: rest =>
      match parse2Digits rest with
      | some (hh, ':' :: r1) =>
          match parse2Digits r1 with
          | some (mm, []) => some (some ((hh : Int) * 60 + (mm : Int)))
          | _ => none
      | _ => none
  | '-' :: rest =>
      match parse2Digits rest with
      | some (hh, ':' :: r1) =>
          match parse2Digits r1 with
          | some (mm, []) => some (some (-((hh : Int) * 60 + (mm : Int))))
          | _ => none
      | _ => none
  | _ => none

/-- Parse an optional fractional-seconds part into microseconds. -/
def parseFracSuffix (cs : List Char) : Option (Nat × List Char) :=
  match cs with
  | '.' :: rest =>
      let ds := rest.takeWhile isDigitChar
      if ds = [] then none
      else
        let d6 := ds.take 6
        some (charsVal d6 * 10 ^ (6 - d6.length), rest.drop ds.length)
  | _ => some (0, cs)

/-- Modelled from the spec: `dateutil.parser.parse` (external library, not
under src), the flexible date-time text parser used by the filter builders
and the reconcilers.  Modelled as an ISO-8601 subset: a date, an optional
time introduced by T or a space, optional fractional seconds, and an
optional UTC or signed HH:MM offset; anything else raises `ValueError`. -/
def dateutilParse (s : String) : Except PyErr PyDatetime :=
  match parse4Digits s.data with
  | some (y, '-' :: r1) =>
      match parse2Digits r1 with
      | some (mo, '-' :: r2) =>
          match parse2Digits r2 with
          | some (d, r3) =>
              if 1 ≤ mo && mo ≤ 12 && 1 ≤ d && d ≤ 31 then
                match r3 with
                | [] => .ok ⟨(y : Int), mo, d, 0, 0, 0, 0, none⟩
                | sep :: r4 =>
                    if sep == 'T' || sep == ' ' then
                      match parse2Digits r4 with
                      | some (h, ':' :: r5) =>
                          match parse2Digits r5 with
                          | some (mi, ':' :: r6) =>
                              match parse2Digits r6 with
                              | some (sec, r7) =>
                                  if h ≤ 23 && mi ≤ 59 && sec ≤ 59 then
                                    match parseFracSuffix r7 with
                                    | some (us, r8) =>
                                        match parseTzSuffix r8 with
                                        | some tz => .ok ⟨(y : Int), mo, d, h, mi, sec, us, tz⟩
                                        | none => .error .valueError
                                    | none => .error .valueError
                                  else .error .valueError
                              | _ => .error .valueError
                          | _ => .error .valueError
                      | _ => .error .valueError
                    else .error .valueError
              else .error .valueError
          | _ => .error .valueError
      | _ => .error .valueError
  | _ => .error .valueError

/-- Model of `dateutil.parser.parse` applied to a JSON value: only text can
be parsed; any other value (in particular JSON null, which Python receives
as None) raises `TypeError`. -/
def dateutilParseValue (v : JsonValue) : Except PyErr PyDatetime :=
  match v with
  | .str s => dateutilParse s
  | _ => .error .typeError

/-- The date-bound rendering of the filter builders: convert to UTC, truncate
to whole seconds, render in ISO form, drop everything from the first plus
sign, and append Z. -/
def utcZFormat (dt : PyDatetime) : String :=
  pySplitPlusHead (isoformat (replaceMicrosecondZero (astimezoneUtc dt))) ++ "Z"

/-- The five remote collection types, in canonical (alphabetical by endpoint
name) order: alert, document, experts, news, project. -/
inductive PdnResourceType where
  | ALERT
  | DOCUMENT
  | EXPERT
  | NEWS_ARTICLE
  | PROJECT
deriving DecidableEq, Repr

/-- Remote endpoint name of each collection type. -/
def PdnResourceType.value : PdnResourceType → String
  | .ALERT => "alert"
  | .DOCUMENT => "document"
  | .EXPERT => "experts"
  | .NEWS_ARTICLE => "news"
  | .PROJECT => "project"

/-- Model of `PdnResourceType(text)`: look an enum member up by its value,
raising `ValueError` for an unknown value. -/
def pdnResourceTypeOfValue (s : String) : Except PyErr PdnResourceType :=
  if s == "alert" then .ok .ALERT
  else if s == "document" then .ok .DOCUMENT
  else if s == "experts" then .ok .EXPERT
  else if s == "news" then .ok .NEWS_ARTICLE
  else if s == "project" then .ok .PROJECT
  else .error .valueError

/-- The canonical list of all collection types. -/
def allPdnTypes : List PdnResourceType :=
  [.ALERT, .DOCUMENT, .EXPERT, .NEWS_ARTICLE, .PROJECT]

/-- A brief remote resource summary, as emitted during page enumeration. -/
structure BriefRemoteResource where
  unique_identifier : String
  title : String
  resource_type : String
deriving DecidableEq, Repr

/-- The per-worker view of the remote service: for each collection type, the
list of raw records the backend would return for this worker's configured
filter, in backend order.  Counting reads the length of this list and paging
slices it, matching the PostgREST contract that the same filter governs both
the total count and every page. -/
structure RemoteData where
  alerts : List RawRecord
  documents : List RawRecord
  experts : List RawRecord
  news : List RawRecord
  projects : List RawRecord

/-- The filtered collection for a given type. -/
def RemoteData.getCollection (r : RemoteData) : PdnResourceType → List RawRecord
  | .ALERT => r.alerts
  | .DOCUMENT => r.documents
  | .EXPERT => r.experts
  | .NEWS_ARTICLE => r.news
  | .PROJECT => r.projects

/-- The harvester worker: per-type enable flags, the client page size, the
configured filter options, and the remote service model. -/
structure PdnHarvesterWorker where
  harvest_alerts : Bool
  harvest_documents : Bool
  harvest_experts : Bool
  harvest_news : Bool
  harvest_projects : Bool
  page_size : Nat
  document_publication_day_filter : Option Int
  document_publication_month_filter : Option Int
  document_publication_year_filter : Option Int
  alerts_start_date_filter : Option String
  alerts_end_date_filter : Option String
  news_start_date_filter : Option String
  news_end_date_filter : Option String
  project_active_filter : Option Bool
  remote : RemoteData

/-- Whether harvesting is enabled for a given type. -/
def PdnHarvesterWorker.should_list (w : PdnHarvesterWorker) : PdnResourceType → Bool
  | .ALERT => w.harvest_alerts
  | .DOCUMENT => w.harvest_documents
  | .EXPERT => w.harvest_experts
  | .NEWS_ARTICLE => w.harvest_news
  | .PROJECT => w.harvest_projects

/-- Model of `PostgRestClient.get_total_records`: the total count of the
filtered collection, read from the Content-Range header. -/
def PdnHarvesterWorker.get_total_records (w : PdnHarvesterWorker) (t : PdnResourceType) : Nat :=
  (w.remote.getCollection t).length

/-- Model of `PostgRestClient.get_paginated_resources`: one page of the
filtered collection, requested with an items Range header covering
`page_size` records starting at `offset`. -/
def PdnHarvesterWorker.get_paginated_resources
    (w : PdnHarvesterWorker) (t : PdnResourceType) (offset : Nat) : List RawRecord :=
  ((w.remote.getCollection t).drop offset).take w.page_size

/-- `_get_document_params`: optional exact matches on publication day, month
and year, in source order. -/
def PdnHarvesterWorker.get_document_params (w : PdnHarvesterWorker) : List (String × String) :=
  (match w.document_publication_day_filter with
   | some d => [("publicationday", "eq." ++ pyIntStr d)]
   | none => []) ++
  (match w.document_publication_month_filter with
   | some m => [("publicationmonth", "eq." ++ pyIntStr m)]
   | none => []) ++
  (match w.document_publication_year_filter with
   | some y => [("publicationyear", "eq." ++ pyIntStr y)]
   | none => [])

/-- `_get_project_params`: optional exact match on the active flag, rendered
lowercase. -/
def PdnHarvesterWorker.get_project_params (w : PdnHarvesterWorker) : List (String × String) :=
  match w.project_active_filter with
  | some b => [("active", if b then "is.true" else "is.false")]
  | none => []

/-- `_get_expert_params`: experts have no filters. -/
def PdnHarvesterWorker.get_expert_params (_w : PdnHarvesterWorker) : List (String × String) :=
  []

/-- The shared treatment of one configured date bound in the alert and news
filter builders: no configured text yields no bound; configured text is
parsed (errors propagate) and rendered as the Z-suffixed UTC form. -/
def renderDateFilter : Option String → Except PyErr (Option String)
  | none => pure none
  | some s => do
      let dt ← dateutilParse s
      pure (some (utcZFormat dt))

/-- `_get_news_article_params`: optional date range on the news date field;
both bounds parse first, then a conjunction, a single inequality, or no
predicate is produced. -/
def PdnHarvesterWorker.get_news_article_params
    (w : PdnHarvesterWorker) : Except PyErr (List (String × String)) := do
  let start_date ← renderDateFilter w.news_start_date_filter
  let end_date ← renderDateFilter w.news_end_date_filter
  match start_date, end_date with
  | some s, some e => pure [("and", "(date.gte." ++ s ++ ",date.lte." ++ e ++ ")")]
  | some s, none => pure [("date", "gte." ++ s)]
  | none, some e => pure [("date", "lte." ++ e)]
  | none, none => pure []

/-- `_get_alert_params`: like the news builder, on the alert date field whose
remote name deliberately preserves the upstream misspelling. -/
def PdnHarvesterWorker.get_alert_params
    (w : PdnHarvesterWorker) : Except PyErr (List (String × String)) := do
  let start_date ← renderDateFilter w.alerts_start_date_filter
  let end_date ← renderDateFilter w.alerts_end_date_filter
  match start_date, end_date with
  | some s, some e => pure [("and", "(daterecieved.gte." ++ s ++ ",daterecieved.lte." ++ e ++ ")")]
  | some s, none => pure [("daterecieved", "gte." ++ s)]
  | none, some e => pure [("daterecieved", "lte." ++ e)]
  | none, none => pure []

/-- The filter builder dispatched for a given type, as used before each
count and page request. -/
def PdnHarvesterWorker.params_for
    (w : PdnHarvesterWorker) : PdnResourceType → Except PyErr (List (String × String))
  | .ALERT => w.get_alert_params
  | .DOCUMENT => .ok w.get_document_params
  | .EXPERT => .ok (w.get_expert_params)
  | .NEWS_ARTICLE => w.get_news_article_params
  | .PROJECT => .ok w.get_project_params

/-- Title construction per type from `_list_brief_resources`; required fields
are indexed directly and raise `KeyError` when absent. -/
def mkBriefTitle (t : PdnResourceType) (record : RawRecord) : Except PyErr String :=
  match t with
  | .ALERT => do
      let subject ← rawIndex record "subject"
      pure (pyStr subject ++ " - " ++ pyStr (rawGetD record "daterecieved" (.str "")))
  | .DOCUMENT =>
      let title_parts : List JsonValue :=
        [rawGetD record "country" (.str ""), rawGetD record "title" (.str ""),
         rawGetD record "series" (.str ""), rawGetD record "publicationyear" (.str "")]
      .ok (String.intercalate " - "
        ((title_parts.filter (fun p => !(p == JsonValue.str ""))).map pyStr))
  | .EXPERT => do
      let name ← rawIndex record "name"
      let title ← rawIndex record "title"
      pure (pyStr name ++ " - " ++ pyStr title)
  | .NEWS_ARTICLE => do
      let title ← rawIndex record "title"
      pure (pyStr title)
  | .PROJECT => do
      let acronym ← rawIndex record "acronym"
      let name ← rawIndex record "name"
      pure (pyStr acronym ++ " - " ++ pyStr name)

/-- One brief resource from one raw record: the type-specific title (truncated
to 255 characters) and the composite unique identifier. -/
def listBriefOne (t : PdnResourceType) (record : RawRecord) : Except PyErr BriefRemoteResource := do
  let title ← mkBriefTitle t record
  let rid ← rawIndex record "id"
  pure ⟨t.value ++ "-" ++ pyStr rid, pyTrunc title 255, t.value⟩

/-- Total variant of `mkBriefTitle` used on records that have the required
fields; absent directly-indexed fields are given a junk null value. -/
def mkBriefTitleTotal (t : PdnResourceType) (record : RawRecord) : String :=
  match t with
  | .ALERT =>
      pyStr (rawGetD record "subject" .null) ++ " - " ++
        pyStr (rawGetD record "daterecieved" (.str ""))
  | .DOCUMENT =>
      let title_parts : List JsonValue :=
        [rawGetD record "country" (.str ""), rawGetD record "title" (.str ""),
         rawGetD record "series" (.str ""), rawGetD record "publicationyear" (.str "")]
      String.intercalate " - "
        ((title_parts.filter (fun p => !(p == JsonValue.str ""))).map pyStr)
  | .EXPERT =>
      pyStr (rawGetD record "name" .null) ++ " - " ++ pyStr (rawGetD record "title" .null)
  | .NEWS_ARTICLE => pyStr (rawGetD record "title" .null)
  | .PROJECT =>
      pyStr (rawGetD record "acronym" .null) ++ " - " ++ pyStr (rawGetD record "name" .null)

/-- Total variant of `listBriefOne`, agreeing with it on listable records. -/
def listBriefOneTotal (t : PdnResourceType) (record : RawRecord) : BriefRemoteResource :=
  ⟨t.value ++ "-" ++ pyStr (rawGetD record "id" .null), pyTrunc (mkBriefTitleTotal t record) 255, t.value⟩

/-- Whether a raw record has every field that page enumeration indexes
directly for its type. -/
def recordListable (t : PdnResourceType) (r : RawRecord) : Bool :=
  hasKey r "id" &&
  (match t with
   | .ALERT => hasKey r "subject"
   | .DOCUMENT => true
   | .EXPERT => hasKey r "name" && hasKey r "title"
   | .NEWS_ARTICLE => hasKey r "title"
   | .PROJECT => hasKey r "acronym" && hasKey r "name")

/-- The record-by-record accumulation loop of `_list_brief_resources`: any
exception raised for one record aborts the whole page. -/
def exceptMapList (f : α → Except ε β) : List α → Except ε (List β)
  | [] => .ok []
  | x :: xs => do
      let y ← f x
      let ys ← exceptMapList f xs
      pure (y :: ys)

/-- `_list_brief_resources`: nothing for a disabled type; otherwise build the
filter predicate, fetch one page and map each record to a brief resource. -/
def PdnHarvesterWorker.list_brief_resources
    (w : PdnHarvesterWorker) (t : PdnResourceType) (offset : Nat) :
    Except PyErr (List BriefRemoteResource) :=
  if w.should_list t then do
    let _params ← w.params_for t
    exceptMapList (listBriefOne t) (w.get_paginated_resources t offset)
  else .ok []

/-- The count entry written into the per-type result map for one type: zero
when the type is disabled; otherwise the type's filter predicate is built
first (it can raise) and the filtered total is requested. -/
def PdnHarvesterWorker.count_entry (w : PdnHarvesterWorker) (t : PdnResourceType) :
    Except PyErr Nat :=
  if w.should_list t then do
    let _ ← w.params_for t
    pure (w.get_total_records t)
  else pure 0

/-- `_get_num_available_resources_by_type`: a map from type to remote total,
zero for disabled types; entries are computed in canonical order, each
enabled type building its filter predicate (which can raise) before
counting. -/
def PdnHarvesterWorker.get_num_available_resources_by_type
    (w : PdnHarvesterWorker) : Except PyErr (PdnResourceType → Nat) := do
  let a ← w.count_entry .ALERT
  let d ← w.count_entry .DOCUMENT
  let e ← w.count_entry .EXPERT
  let n ← w.count_entry .NEWS_ARTICLE
  let p ← w.count_entry .PROJECT
  pure (fun t => match t with
    | .ALERT => a
    | .DOCUMENT => d
    | .EXPERT => e
    | .NEWS_ARTICLE => n
    | .PROJECT => p)

/-- `get_num_available_resources`: the sum of the per-type counts. -/
def PdnHarvesterWorker.get_num_available_resources
    (w : PdnHarvesterWorker) : Except PyErr Nat := do
  let total ← w.get_num_available_resources_by_type
  pure (total .ALERT + total .DOCUMENT + total .EXPERT + total .NEWS_ARTICLE + total .PROJECT)

/-- `_list_resources_starting_from_alerts`: fetch alerts at the local offset
and top up, in canonical order, from documents, experts, news and projects,
each from its own offset zero, truncating to the page size. -/
def PdnHarvesterWorker.list_resources_starting_from_alerts
    (w : PdnHarvesterWorker) (offset : Nat) : Except PyErr (List BriefRemoteResource) := do
  let alert_list ← w.list_brief_resources .ALERT offset
  if alert_list.length < w.page_size then do
    let document_list ← w.list_brief_resources .DOCUMENT 0
    let added := alert_list ++ document_list
    if added.length < w.page_size then do
      let expert_list ← w.list_brief_resources .EXPERT 0
      let added2 := added ++ expert_list
      if added2.length < w.page_size then do
        let news_list ← w.list_brief_resources .NEWS_ARTICLE 0
        let added3 := added2 ++ news_list
        if added3.length < w.page_size then do
          let projects_list ← w.list_brief_resources .PROJECT 0
          pure ((added3 ++ projects_list).take w.page_size)
        else pure (added3.take w.page_size)
      else pure (added2.take w.page_size)
    else pure (added.take w.page_size)
  else pure (alert_list.take w.page_size)

/-- `_list_resources_starting_from_documents`. -/
def PdnHarvesterWorker.list_resources_starting_from_documents
    (w : PdnHarvesterWorker) (offset : Nat) : Except PyErr (List BriefRemoteResource) := do
  let document_list ← w.list_brief_resources .DOCUMENT offset
  if document_list.length < w.page_size then do
    let expert_list ← w.list_brief_resources .EXPERT 0
    let added := document_list ++ expert_list
    if added.length < w.page_size then do
      let news_list ← w.list_brief_resources .NEWS_ARTICLE 0
      let added2 := added ++ news_list
      if added2.length < w.page_size then do
        let projects_list ← w.list_brief_resources .PROJECT 0
        pure ((added2 ++ projects_list).take w.page_size)
      else pure (added2.take w.page_size)
    else pure (added.take w.page_size)
  else pure (document_list.take w.page_size)

/-- `_list_resources_starting_from_experts`. -/
def PdnHarvesterWorker.list_resources_starting_from_experts
    (w : PdnHarvesterWorker) (offset : Nat) : Except PyErr (List BriefRemoteResource) := do
  let expert_list ← w.list_brief_resources .EXPERT offset
  if expert_list.length < w.page_size then do
    let news_list ← w.list_brief_resources .NEWS_ARTICLE 0
    let added := expert_list ++ news_list
    if added.length < w.page_size then do
      let projects_list ← w.list_brief_resources .PROJECT 0
      pure ((added ++ projects_list).take w.page_size)
    else pure (added.take w.page_size)
  else pure (expert_list.take w.page_size)

/-- `_list_resources_starting_from_news`. -/
def PdnHarvesterWorker.list_resources_starting_from_news
    (w : PdnHarvesterWorker) (offset : Nat) : Except PyErr (List BriefRemoteResource) := do
  let news_list ← w.list_brief_resources .NEWS_ARTICLE offset
  if news_list.length < w.page_size then do
    let projects_list ← w.list_brief_resources .PROJECT 0
    pure ((news_list ++ projects_list).take w.page_size)
  else pure (news_list.take w.page_size)

/-- `list_resources`: compute the per-type counts, locate the type whose
interval of the virtual offset space contains the global offset, and fetch
starting there. -/
def PdnHarvesterWorker.list_resources
    (w : PdnHarvesterWorker) (offset : Nat) : Except PyErr (List BriefRemoteResource) := do
  let total_resources ← w.get_num_available_resources_by_type
  if offset < total_resources .ALERT then
    w.list_resources_starting_from_alerts offset
  else if offset < total_resources .ALERT + total_resources .DOCUMENT then
    w.list_resources_starting_from_documents (offset - total_resources .ALERT)
  else if offset < total_resources .ALERT + total_resources .DOCUMENT +
      total_resources .EXPERT then
    w.list_resources_starting_from_experts
      (offset - (total_resources .ALERT + total_resources .DOCUMENT))
  else if offset < total_resources .ALERT + total_resources .DOCUMENT +
      total_resources .EXPERT + total_resources .NEWS_ARTICLE then
    w.list_resources_starting_from_news
      (offset - (total_resources .ALERT + total_resources .DOCUMENT + total_resources .EXPERT))
  else do
    let l ← w.list_brief_resources .PROJECT
      (offset - (total_resources .ALERT + total_resources .DOCUMENT +
        total_resources .EXPERT + total_resources .NEWS_ARTICLE))
    pure (l.take w.page_size)

/-- A reconciled local Alert record: the remote identity plus the field
values written by `_update_alert_record`. -/
structure AlertRow where
  remote_id : JsonValue
  content : JsonValue
  countries : JsonValue
  daterecieved : Option PyDatetime
  ignore : JsonValue
  subject : JsonValue
  uuid : JsonValue
  source_id : JsonValue
deriving DecidableEq, Repr

/-- A reconciled local Expert record. -/
structure ExpertRow where
  remote_id : JsonValue
  name : JsonValue
  title : JsonValue
  country : JsonValue
  country_code : JsonValue
  email : JsonValue
  ministry : JsonValue
  country_id : JsonValue
deriving DecidableEq, Repr

/-- A reconciled local News record. -/
structure NewsRow where
  remote_id : JsonValue
  source_id : JsonValue
  title : JsonValue
  url : JsonValue
  country : JsonValue
  country_code : JsonValue
  date : Option PyDatetime
  source : JsonValue
deriving DecidableEq, Repr

/-- A reconciled local Project record. -/
structure ProjectRow where
  remote_id : JsonValue
  name : JsonValue
  acronym : JsonValue
  description : JsonValue
  logo_url : JsonValue
  url : JsonValue
  active : JsonValue
deriving DecidableEq, Repr

/-- The try-except block around the date parse in the reconcilers: only
`KeyError` (the key being absent) is caught and yields an unset date; a
present value is handed to the parser and any error it raises propagates. -/
def parseOptionalDateField (raw : RawRecord) (k : String) :
    Except PyErr (Option PyDatetime) :=
  match rawLookup raw k with
  | none => .ok none
  | some v => do
      let d ← dateutilParseValue v
      pure (some d)

/-- `_update_alert_record`: parse the received date (only `KeyError`, the
absence of the field, is caught), read the identity field, and compute the
values to write; every other field defaults only when absent. -/
def updateAlertRecord (raw : RawRecord) : Except PyErr AlertRow := do
  let date_received ← parseOptionalDateField raw "daterecieved"
  let rid ← rawIndex raw "id"
  pure ⟨rid, rawGetD raw "content" (.str ""), rawGetD raw "countries" (.str ""),
    date_received, rawGetD raw "ignore" (.bool false), rawGetD raw "subject" (.str ""),
    rawGetD raw "uuid" (.str ""), rawGetD raw "source_id" (.num 0)⟩

/-- `_update_expert_record`: no date fields; `country_code` and `country_id`
use a get-then-or chain, the rest plain defaults. -/
def updateExpertRecord (raw : RawRecord) : Except PyErr ExpertRow := do
  let rid ← rawIndex raw "id"
  pure ⟨rid, rawGetD raw "name" (.str ""), rawGetD raw "title" (.str ""),
    rawGetD raw "country" (.str ""),
    pyOr (rawGetD raw "country_code" .null) (.str ""),
    rawGetD raw "email" (.str ""), rawGetD raw "ministry" (.str ""),
    pyOr (rawGetD raw "country_id" .null) (.str "")⟩

/-- `_update_news_record`: like the alert reconciler with the `date` field. -/
def updateNewsRecord (raw : RawRecord) : Except PyErr NewsRow := do
  let date0 ← parseOptionalDateField raw "date"
  let rid ← rawIndex raw "id"
  pure ⟨rid, rawGetD raw "source_id" (.num 0), rawGetD raw "title" (.str ""),
    rawGetD raw "url" (.str ""), rawGetD raw "country" (.str ""),
    pyOr (rawGetD raw "country_code" .null) (.str ""), date0,
    rawGetD raw "source" (.str "")⟩

/-- `_update_project_record`. -/
def updateProjectRecord (raw : RawRecord) : Except PyErr ProjectRow := do
  let rid ← rawIndex raw "id"
  pure ⟨rid, rawGetD raw "name" (.str ""), rawGetD raw "acronym" (.str ""),
    rawGetD raw "description" (.str ""), rawGetD raw "logo_url" (.str ""),
    rawGetD raw "url" (.str ""), rawGetD raw "active" (.bool false)⟩

/-- Model of Django `update_or_create(remote_id=..., defaults=...)` for
alerts: overwrite every row holding this remote id, or insert a new row. -/
def alertUpdateOrCreate (store : List AlertRow) (row : AlertRow) : List AlertRow :=
  if store.any (fun r => r.remote_id == row.remote_id) then
    store.map (fun r => if r.remote_id == row.remote_id then row else r)
  else store ++ [row]

/-- The typed local record store. -/
structure LocalStores where
  alerts : List AlertRow
  experts : List ExpertRow
  news : List NewsRow
  projects : List ProjectRow
deriving DecidableEq

/-- Model of Django `Model.objects.get(remote_id=...)` followed by
`delete()`: no match is caught (`DoesNotExist` is logged) and leaves the
rows unchanged; several matches raise `MultipleObjectsReturned`. -/
def deleteByRemoteId (getId : α → JsonValue) (rid : Int) (rows : List α) :
    Except PyErr (List α) :=
  match rows.filter (fun r => getId r == JsonValue.num rid) with
  | [] => .ok rows
  | [_] => .ok (rows.filter (fun r => !(getId r == JsonValue.num rid)))
  | _ => .error .multipleObjectsReturned

/-- The per-type record-store dispatch of `finalize_resource_deletion`:
delete the row with the given remote id in the store of the given type
(documents have no local record class and are skipped). -/
def deleteInStores (stores : LocalStores) (t : PdnResourceType) (rid : Int) :
    Except PyErr LocalStores :=
  match t with
  | .DOCUMENT => pure stores
  | .ALERT => do
      let rows ← deleteByRemoteId AlertRow.remote_id rid stores.alerts
      pure ⟨rows, stores.experts, stores.news, stores.projects⟩
  | .EXPERT => do
      let rows ← deleteByRemoteId ExpertRow.remote_id rid stores.experts
      pure ⟨stores.alerts, rows, stores.news, stores.projects⟩
  | .NEWS_ARTICLE => do
      let rows ← deleteByRemoteId NewsRow.remote_id rid stores.news
      pure ⟨stores.alerts, stores.experts, rows, stores.projects⟩
  | .PROJECT => do
      let rows ← deleteByRemoteId ProjectRow.remote_id rid stores.projects
      pure ⟨stores.alerts, stores.experts, stores.news, rows⟩

/-- `finalize_resource_deletion`: resolve the record class from the resource
type (documents have none and are skipped), parse the numeric remote id out
of the composite identifier, and delete the matching local record; a missing
record is logged, not raised. -/
def finalizeResourceDeletion (stores : LocalStores) (remote_resource_type : String)
    (unique_identifier : String) : Except PyErr LocalStores := do
  let t ← pdnResourceTypeOfValue remote_resource_type
  if t == .DOCUMENT then pure stores
  else do
    let rid ← pyInt (rpartitionTail unique_identifier)
    deleteInStores stores t rid

/-- The composite identifier of a resource, as built during enumeration:
the endpoint name, the separator, and the textual remote id. -/
def makeUniqueIdentifier (t : String) (remote_id : Int) : String :=
  t ++ "-" ++ pyIntStr remote_id

/-- Spec-side per-type count: a disabled type counts zero, an enabled type
counts its whole filtered collection. -/
def PdnHarvesterWorker.numAvailable (w : PdnHarvesterWorker) (t : PdnResourceType) : Nat :=
  if w.should_list t then w.get_total_records t else 0

/-- Spec-side total of the virtual catalog. -/
def PdnHarvesterWorker.totalAvailable (w : PdnHarvesterWorker) : Nat :=
  w.numAvailable .ALERT + w.numAvailable .DOCUMENT + w.numAvailable .EXPERT +
    w.numAvailable .NEWS_ARTICLE + w.numAvailable .PROJECT

/-- Spec-side brief resources of one type: empty for a disabled type. -/
def PdnHarvesterWorker.typeBriefs (w : PdnHarvesterWorker) (t : PdnResourceType) :
    List BriefRemoteResource :=
  if w.should_list t then (w.remote.getCollection t).map (listBriefOneTotal t) else []

/-- Spec-side virtual catalog: the enabled collections concatenated in
canonical type order. -/
def PdnHarvesterWorker.virtualBriefs (w : PdnHarvesterWorker) : List BriefRemoteResource :=
  w.typeBriefs .ALERT ++ w.typeBriefs .DOCUMENT ++ w.typeBriefs .EXPERT ++
    w.typeBriefs .NEWS_ARTICLE ++ w.typeBriefs .PROJECT

/-- Whether an exception value is a success. -/
def exceptIsOk : Except ε α → Bool
  | .ok _ => true
  | .error _ => false

/-- Whether every filter builder of this worker succeeds on its configured
date options. -/
def PdnHarvesterWorker.configOk (w : PdnHarvesterWorker) : Bool :=
  exceptIsOk w.get_alert_params && exceptIsOk w.get_news_article_params

/-- Whether every record of every enabled collection carries the fields that
page enumeration indexes directly. -/
def PdnHarvesterWorker.recordsOk (w : PdnHarvesterWorker) : Bool :=
  allPdnTypes.all (fun t =>
    !(w.should_list t) || (w.remote.getCollection t).all (recordListable t))

/-- A well-formed worker: filters parse and enabled records are listable. -/
def PdnHarvesterWorker.wellFormed (w : PdnHarvesterWorker) : Bool :=
  w.configOk && w.recordsOk

@[simp]
theorem exceptBindOk (a : α) (f : α → Except ε β) : (Except.ok a >>= f) = f a := rfl

@[simp]
theorem exceptPureEq (a : α) : (pure a : Except ε α) = Except.ok a := rfl

@[simp]
theorem exceptBindError (e : ε) (f : α → Except ε β) :
    ((Except.error e : Except ε α) >>= f) = Except.error e := rfl

theorem exceptMapList_ok (f : α → Except ε β) (g : α → β) (xs : List α)
    (h : ∀ x ∈ xs, f x = .ok (g x)) : exceptMapList f xs = .ok (xs.map g) := by
  induction xs with
  | nil => rfl
  | cons x xs ih =>
      have hx := h x (List.mem_cons_self x xs)
      have hrest := ih (fun y hy => h y (List.mem_cons_of_mem x hy))
      simp [exceptMapList, hx, hrest]

theorem exceptMapList_error (f : α → Except ε β) (xs : List α)
    (h : ∃ x ∈ xs, ∀ y, f x ≠ .ok y) : ∃ e, exceptMapList f xs = .error e := by
  induction xs with
  | nil => obtain ⟨x, hx, _⟩ := h; cases hx
  | cons x xs ih =>
      obtain ⟨z, hz, hbad⟩ := h
      rcases List.mem_cons.mp hz with hzx | hzs
      · subst hzx
        cases hfx : f z with
        | error e => exact ⟨e, by simp [exceptMapList, hfx]⟩
        | ok y => exact absurd hfx (hbad y)
      · cases hfx : f x with
        | error e => exact ⟨e, by simp [exceptMapList, hfx]⟩
        | ok y =>
            obtain ⟨e, he⟩ := ih ⟨z, hzs, hbad⟩
            exact ⟨e, by simp [exceptMapList, hfx, he]⟩

theorem hasKey_elim (r : RawRecord) (k : String) (h : hasKey r k = true) :
    ∃ v, rawLookup r k = some v := by
  unfold hasKey at h
  exact Option.isSome_iff_exists.mp h

theorem rawGetD_of_lookup (r : RawRecord) (k : String) (v d : JsonValue)
    (h : rawLookup r k = some v) : rawGetD r k d = v := by
  simp [rawGetD, h]

theorem rawIndex_of_lookup (r : RawRecord) (k : String) (v : JsonValue)
    (h : rawLookup r k = some v) : rawIndex r k = .ok v := by
  simp [rawIndex, h]

theorem listBriefOne_eq_total (t : PdnResourceType) (r : RawRecord)
    (h : recordListable t r = true) : listBriefOne t r = .ok (listBriefOneTotal t r) := by
  unfold recordListable at h
  rw [Bool.and_eq_true] at h
  obtain ⟨hid, hrest⟩ := h
  obtain ⟨idv, hidv⟩ := hasKey_elim r "id" hid
  cases t with
  | ALERT =>
      obtain ⟨sv, hsv⟩ := hasKey_elim r "subject" hrest
      simp [listBriefOne, mkBriefTitle, listBriefOneTotal, mkBriefTitleTotal,
        rawIndex_of_lookup r "subject" sv hsv, rawIndex_of_lookup r "id" idv hidv,
        rawGetD_of_lookup r "subject" sv _ hsv, rawGetD_of_lookup r "id" idv _ hidv]
  | DOCUMENT =>
      simp [listBriefOne, mkBriefTitle, listBriefOneTotal, mkBriefTitleTotal,
        rawIndex_of_lookup r "id" idv hidv, rawGetD_of_lookup r "id" idv _ hidv]
  | EXPERT =>
      rw [Bool.and_eq_true] at hrest
      obtain ⟨nv, hnv⟩ := hasKey_elim r "name" hrest.1
      obtain ⟨tv, htv⟩ := hasKey_elim r "title" hrest.2
      simp [listBriefOne, mkBriefTitle, listBriefOneTotal, mkBriefTitleTotal,
        rawIndex_of_lookup r "name" nv hnv, rawIndex_of_lookup r "title" tv htv,
        rawIndex_of_lookup r "id" idv hidv,
        rawGetD_of_lookup r "name" nv _ hnv, rawGetD_of_lookup r "title" tv _ htv,
        rawGetD_of_lookup r "id" idv _ hidv]
  | NEWS_ARTICLE =>
      obtain ⟨tv, htv⟩ := hasKey_elim r "title" hrest
      simp [listBriefOne, mkBriefTitle, listBriefOneTotal, mkBriefTitleTotal,
        rawIndex_of_lookup r "title" tv htv, rawIndex_of_lookup r "id" idv hidv,
        rawGetD_of_lookup r "title" tv _ htv, rawGetD_of_lookup r "id" idv _ hidv]
  | PROJECT =>
      rw [Bool.and_eq_true] at hrest
      obtain ⟨av, hav⟩ := hasKey_elim r "acronym" hrest.1
      obtain ⟨nv, hnv⟩ := hasKey_elim r "name" hrest.2
      simp [listBriefOne, mkBriefTitle, listBriefOneTotal, mkBriefTitleTotal,
        rawIndex_of_lookup r "acronym" av hav, rawIndex_of_lookup r "name" nv hnv,
        rawIndex_of_lookup r "id" idv hidv,
        rawGetD_of_lookup r "acronym" av _ hav, rawGetD_of_lookup r "name" nv _ hnv,
        rawGetD_of_lookup r "id" idv _ hidv]

theorem takeAppendShort (A Y : List α) (p : Nat) (hA : A.length ≤ p) :
    (A ++ Y.take p).take p = (A ++ Y).take p := by
  rw [List.take_append_eq_append_take, List.take_append_eq_append_take,
    List.take_of_length_le hA, List.take_take]
  congr 1
  have : min (p - A.length) p = p - A.length := by omega
  rw [this]

theorem takeAppendFull (A Y R : List α) (p : Nat) (hA : A.length ≤ p)
    (hfull : p ≤ A.length + (Y.take p).length) :
    (A ++ Y.take p).take p = (A ++ (Y ++ R)).take p := by
  rw [takeAppendShort A Y p hA, List.take_append_eq_append_take,
    List.take_append_eq_append_take, List.take_of_length_le hA]
  congr 1
  rw [List.take_append_eq_append_take]
  have hY : p - A.length ≤ Y.length := by
    rw [List.length_take] at hfull
    omega
  have : (p - A.length) - Y.length = 0 := by omega
  rw [this, List.take_zero, List.append_nil]

theorem takeFirstFull (X R : List α) (p : Nat) (h : p ≤ X.length) :
    (X ++ R).take p = X.take p := by
  rw [List.take_append_eq_append_take]
  have : p - X.length = 0 := by omega
  rw [this, List.take_zero, List.append_nil]

theorem alert_params_ok (w : PdnHarvesterWorker) (h : w.wellFormed = true) :
    ∃ prm, w.get_alert_params = .ok prm := by
  unfold PdnHarvesterWorker.wellFormed PdnHarvesterWorker.configOk at h
  rw [Bool.and_eq_true, Bool.and_eq_true] at h
  cases hv : w.get_alert_params with
  | ok prm => exact ⟨prm, rfl⟩
  | error e => rw [hv] at h; simp [exceptIsOk] at h

theorem news_params_ok (w : PdnHarvesterWorker) (h : w.wellFormed = true) :
    ∃ prm, w.get_news_article_params = .ok prm := by
  unfold PdnHarvesterWorker.wellFormed PdnHarvesterWorker.configOk at h
  rw [Bool.and_eq_true, Bool.and_eq_true] at h
  cases hv : w.get_news_article_params with
  | ok prm => exact ⟨prm, rfl⟩
  | error e => rw [hv] at h; simp [exceptIsOk] at h

theorem params_for_ok (w : PdnHarvesterWorker) (h : w.wellFormed = true)
    (t : PdnResourceType) : ∃ prm, w.params_for t = .ok prm := by
  cases t with
  | ALERT => exact alert_params_ok w h
  | DOCUMENT => exact ⟨_, rfl⟩
  | EXPERT => exact ⟨_, rfl⟩
  | NEWS_ARTICLE => exact news_params_ok w h
  | PROJECT => exact ⟨_, rfl⟩

theorem records_elim (w : PdnHarvesterWorker) (h : w.wellFormed = true)
    (t : PdnResourceType) (hsl : w.should_list t = true) (r : RawRecord)
    (hr : r ∈ w.remote.getCollection t) : recordListable t r = true := by
  unfold PdnHarvesterWorker.wellFormed PdnHarvesterWorker.recordsOk at h
  rw [Bool.and_eq_true] at h
  have hall := List.all_eq_true.mp h.2 t (by cases t <;> simp [allPdnTypes])
  rw [hsl] at hall
  simp only [Bool.not_true, Bool.false_or] at hall
  exact List.all_eq_true.mp hall r hr

theorem length_typeBriefs (w : PdnHarvesterWorker) (t : PdnResourceType) :
    (w.typeBriefs t).length = w.numAvailable t := by
  unfold PdnHarvesterWorker.typeBriefs PdnHarvesterWorker.numAvailable
    PdnHarvesterWorker.get_total_records
  by_cases hsl : w.should_list t
  · rw [if_pos hsl, if_pos hsl, List.length_map]
  · rw [if_neg hsl, if_neg hsl, List.length_nil]

theorem list_brief_eq (w : PdnHarvesterWorker) (h : w.wellFormed = true)
    (t : PdnResourceType) (off : Nat) :
    w.list_brief_resources t off = .ok (((w.typeBriefs t).drop off).take w.page_size) := by
  unfold PdnHarvesterWorker.list_brief_resources PdnHarvesterWorker.typeBriefs
  by_cases hsl : w.should_list t
  · rw [if_pos hsl, if_pos hsl]
    obtain ⟨prm, hprm⟩ := params_for_ok w h t
    rw [hprm]
    simp only [exceptBindOk]
    have hmem : ∀ r ∈ w.get_paginated_resources t off,
        listBriefOne t r = .ok (listBriefOneTotal t r) := by
      intro r hr
      apply listBriefOne_eq_total
      apply records_elim w h t hsl
      exact List.mem_of_mem_drop (List.mem_of_mem_take hr)
    rw [exceptMapList_ok (listBriefOne t) (listBriefOneTotal t) _ hmem]
    unfold PdnHarvesterWorker.get_paginated_resources
    rw [List.map_take, List.map_drop]
  · rw [if_neg hsl, if_neg hsl]
    simp

theorem count_entry_eq (w : PdnHarvesterWorker) (h : w.wellFormed = true)
    (t : PdnResourceType) : w.count_entry t = .ok (w.numAvailable t) := by
  unfold PdnHarvesterWorker.count_entry PdnHarvesterWorker.numAvailable
  by_cases hsl : w.should_list t
  · rw [if_pos hsl, if_pos hsl]
    obtain ⟨prm, hprm⟩ := params_for_ok w h t
    rw [hprm]
    rfl
  · rw [if_neg hsl, if_neg hsl]
    rfl

theorem counts_eq (w : PdnHarvesterWorker) (h : w.wellFormed = true) :
    w.get_num_available_resources_by_type = .ok w.numAvailable := by
  unfold PdnHarvesterWorker.get_num_available_resources_by_type
  rw [count_entry_eq w h .ALERT, count_entry_eq w h .DOCUMENT,
    count_entry_eq w h .EXPERT, count_entry_eq w h .NEWS_ARTICLE,
    count_entry_eq w h .PROJECT]
  simp only [exceptBindOk, exceptPureEq]
  congr 1
  funext t
  cases t <;> rfl

theorem list_from_alerts_eq (w : PdnHarvesterWorker) (h : w.wellFormed = true) (off : Nat) :
    w.list_resources_starting_from_alerts off =
      .ok (((w.typeBriefs .ALERT).drop off ++ w.typeBriefs .DOCUMENT ++ w.typeBriefs .EXPERT ++
        w.typeBriefs .NEWS_ARTICLE ++ w.typeBriefs .PROJECT).take w.page_size) := by
  set p := w.page_size with hp
  set A := (w.typeBriefs .ALERT).drop off with hA
  set D := w.typeBriefs .DOCUMENT with hD
  set E := w.typeBriefs .EXPERT with hE
  set N := w.typeBriefs .NEWS_ARTICLE with hN
  set P := w.typeBriefs .PROJECT with hP
  unfold PdnHarvesterWorker.list_resources_starting_from_alerts
  simp only [list_brief_eq w h, exceptBindOk, exceptPureEq, List.drop_zero, ← hp, ← hA,
    ← hD, ← hE, ← hN, ← hP]
  by_cases h1 : (A.take p).length < p
  · rw [if_pos h1]
    have hAlen : A.length ≤ p := by
      rw [List.length_take] at h1; omega
    rw [List.take_of_length_le hAlen]
    by_cases h2 : (A ++ D.take p).length < p
    · rw [if_pos h2]
      have hADlen : (A ++ D).length ≤ p := by
        rw [List.length_append] at h2 ⊢
        rw [List.length_take] at h2
        omega
      have hDfull : D.take p = D := by
        rw [List.length_append, List.length_take] at h2
        exact List.take_of_length_le (by omega)
      rw [hDfull]
      by_cases h3 : ((A ++ D) ++ E.take p).length < p
      · rw [if_pos h3]
        have hADElen : ((A ++ D) ++ E).length ≤ p := by
          rw [List.length_append] at h3 ⊢
          rw [List.length_take] at h3
          omega
        have hEfull : E.take p = E := by
          rw [List.length_append, List.length_take] at h3
          exact List.take_of_length_le (by omega)
        rw [hEfull]
        by_cases h4 : (((A ++ D) ++ E) ++ N.take p).length < p
        · rw [if_pos h4]
          have hADENlen : (((A ++ D) ++ E) ++ N).length ≤ p := by
            rw [List.length_append] at h4 ⊢
            rw [List.length_take] at h4
            omega
          have hNfull : N.take p = N := by
            rw [List.length_append, List.length_take] at h4
            exact List.take_of_length_le (by omega)
          rw [hNfull]
          rw [takeAppendShort (((A ++ D) ++ E) ++ N) P p hADENlen]
        · rw [if_neg h4]
          rw [takeAppendFull ((A ++ D) ++ E) N P p hADElen (by
            rw [List.length_append] at h4
            omega)]
          simp [List.append_assoc]
      · rw [if_neg h3]
        rw [takeAppendFull (A ++ D) E (N ++ P) p hADlen (by
          rw [List.length_append] at h3
          omega)]
        simp [List.append_assoc]
    · rw [if_neg h2]
      rw [takeAppendFull A D ((E ++ N) ++ P) p hAlen (by
        rw [List.length_append] at h2
        omega)]
      simp [List.append_assoc]
  · rw [if_neg h1]
    rw [List.take_take, Nat.min_self]
    have hAbig : p ≤ A.length := by
      rw [List.length_take] at h1; omega
    rw [show ((((A ++ D) ++ E) ++ N) ++ P) = A ++ (((D ++ E) ++ N) ++ P) by
      simp [List.append_assoc]]
    rw [takeFirstFull A (((D ++ E) ++ N) ++ P) p hAbig]

theorem list_from_documents_eq (w : PdnHarvesterWorker) (h : w.wellFormed = true) (off : Nat) :
    w.list_resources_starting_from_documents off =
      .ok (((w.typeBriefs .DOCUMENT).drop off ++ w.typeBriefs .EXPERT ++
        w.typeBriefs .NEWS_ARTICLE ++ w.typeBriefs .PROJECT).take w.page_size) := by
  set p := w.page_size with hp
  set D := (w.typeBriefs .DOCUMENT).drop off with hD
  set E := w.typeBriefs .EXPERT with hE
  set N := w.typeBriefs .NEWS_ARTICLE with hN
  set P := w.typeBriefs .PROJECT with hP
  unfold PdnHarvesterWorker.list_resources_starting_from_documents
  simp only [list_brief_eq w h, exceptBindOk, exceptPureEq, List.drop_zero, ← hp, ← hD,
    ← hE, ← hN, ← hP]
  by_cases h1 : (D.take p).length < p
  · rw [if_pos h1]
    have hDlen : D.length ≤ p := by
      rw [List.length_take] at h1; omega
    rw [List.take_of_length_le hDlen]
    by_cases h2 : (D ++ E.take p).length < p
    · rw [if_pos h2]
      have hDElen : (D ++ E).length ≤ p := by
        rw [List.length_append] at h2 ⊢
        rw [List.length_take] at h2
        omega
      have hEfull : E.take p = E := by
        rw [List.length_append, List.length_take] at h2
        exact List.take_of_length_le (by omega)
      rw [hEfull]
      by_cases h3 : ((D ++ E) ++ N.take p).length < p
      · rw [if_pos h3]
        have hDENlen : ((D ++ E) ++ N).length ≤ p := by
          rw [List.length_append] at h3 ⊢
          rw [List.length_take] at h3
          omega
        have hNfull : N.take p = N := by
          rw [List.length_append, List.length_take] at h3
          exact List.take_of_length_le (by omega)
        rw [hNfull]
        rw [takeAppendShort ((D ++ E) ++ N) P p hDENlen]
      · rw [if_neg h3]
        rw [takeAppendFull (D ++ E) N P p hDElen (by
          rw [List.length_append] at h3
          omega)]
        simp [List.append_assoc]
    · rw [if_neg h2]
      rw [takeAppendFull D E (N ++ P) p hDlen (by
        rw [List.length_append] at h2
        omega)]
      simp [List.append_assoc]
  · rw [if_neg h1]
    rw [List.take_take, Nat.min_self]
    have hDbig : p ≤ D.length := by
      rw [List.length_take] at h1; omega
    rw [show (((D ++ E) ++ N) ++ P) = D ++ ((E ++ N) ++ P) by
      simp [List.append_assoc]]
    rw [takeFirstFull D ((E ++ N) ++ P) p hDbig]

theorem list_from_experts_eq (w : PdnHarvesterWorker) (h : w.wellFormed = true) (off : Nat) :
    w.list_resources_starting_from_experts off =
      .ok (((w.typeBriefs .EXPERT).drop off ++ w.typeBriefs .NEWS_ARTICLE ++
        w.typeBriefs .PROJECT).take w.page_size) := by
  set p := w.page_size with hp
  set E := (w.typeBriefs .EXPERT).drop off with hE
  set N := w.typeBriefs .NEWS_ARTICLE with hN
  set P := w.typeBriefs .PROJECT with hP
  unfold PdnHarvesterWorker.list_resources_starting_from_experts
  simp only [list_brief_eq w h, exceptBindOk, exceptPureEq, List.drop_zero, ← hp, ← hE,
    ← hN, ← hP]
  by_cases h1 : (E.take p).length < p
  · rw [if_pos h1]
    have hElen : E.length ≤ p := by
      rw [List.length_take] at h1; omega
    rw [List.take_of_length_le hElen]
    by_cases h2 : (E ++ N.take p).length < p
    · rw [if_pos h2]
      have hENlen : (E ++ N).length ≤ p := by
        rw [List.length_append] at h2 ⊢
        rw [List.length_take] at h2
        omega
      have hNfull : N.take p = N := by
        rw [List.length_append, List.length_take] at h2
        exact List.take_of_length_le (by omega)
      rw [hNfull]
      rw [takeAppendShort (E ++ N) P p hENlen]
    · rw [if_neg h2]
      rw [takeAppendFull E N P p hElen (by
        rw [List.length_append] at h2
        omega)]
      simp [List.append_assoc]
  · rw [if_neg h1]
    rw [List.take_take, Nat.min_self]
    have hEbig : p ≤ E.length := by
      rw [List.length_take] at h1; omega
    rw [show ((E ++ N) ++ P) = E ++ (N ++ P) by simp [List.append_assoc]]
    rw [takeFirstFull E (N ++ P) p hEbig]

theorem list_from_news_eq (w : PdnHarvesterWorker) (h : w.wellFormed = true) (off : Nat) :
    w.list_resources_starting_from_news off =
      .ok (((w.typeBriefs .NEWS_ARTICLE).drop off ++
        w.typeBriefs .PROJECT).take w.page_size) := by
  set p := w.page_size with hp
  set N := (w.typeBriefs .NEWS_ARTICLE).drop off with hN
  set P := w.typeBriefs .PROJECT with hP
  unfold PdnHarvesterWorker.list_resources_starting_from_news
  simp only [list_brief_eq w h, exceptBindOk, exceptPureEq, List.drop_zero, ← hp, ← hN, ← hP]
  by_cases h1 : (N.take p).length < p
  · rw [if_pos h1]
    have hNlen : N.length ≤ p := by
      rw [List.length_take] at h1; omega
    rw [List.take_of_length_le hNlen]
    rw [takeAppendShort N P p hNlen]
  · rw [if_neg h1]
    rw [List.take_take, Nat.min_self]
    have hNbig : p ≤ N.length := by
      rw [List.length_take] at h1; omega
    rw [takeFirstFull N P p hNbig]

theorem list_resources_eq_virtual (w : PdnHarvesterWorker) (h : w.wellFormed = true)
    (o : Nat) :
    w.list_resources o = .ok ((w.virtualBriefs.drop o).take w.page_size) := by
  set p := w.page_size with hp
  set a := w.numAvailable .ALERT with ha
  set d := w.numAvailable .DOCUMENT with hd
  set e := w.numAvailable .EXPERT with he
  set n := w.numAvailable .NEWS_ARTICLE with hn
  set A := w.typeBriefs .ALERT with hA
  set D := w.typeBriefs .DOCUMENT with hD
  set E := w.typeBriefs .EXPERT with hE
  set N := w.typeBriefs .NEWS_ARTICLE with hN
  set P := w.typeBriefs .PROJECT with hP
  have hlenA : A.length = a := length_typeBriefs w .ALERT
  have hlenD : D.length = d := length_typeBriefs w .DOCUMENT
  have hlenE : E.length = e := length_typeBriefs w .EXPERT
  have hlenN : N.length = n := length_typeBriefs w .NEWS_ARTICLE
  have hvirt : w.virtualBriefs = A ++ (D ++ (E ++ (N ++ P))) := by
    unfold PdnHarvesterWorker.virtualBriefs
    simp [List.append_assoc]
  unfold PdnHarvesterWorker.list_resources
  rw [counts_eq w h]
  simp only [exceptBindOk, ← ha, ← hd, ← he, ← hn]
  by_cases h1 : o < a
  · rw [if_pos h1, list_from_alerts_eq w h o, hvirt]
    rw [List.drop_append_eq_append_drop]
    have : o - A.length = 0 := by omega
    rw [this, List.drop_zero]
    congr 1
    simp [List.append_assoc]
  · rw [if_neg h1]
    by_cases h2 : o < a + d
    · rw [if_pos h2, list_from_documents_eq w h (o - a), hvirt]
      rw [List.drop_append_eq_append_drop, List.drop_append_eq_append_drop]
      rw [List.drop_eq_nil_of_le (by omega : A.length ≤ o)]
      have hoA : o - A.length = o - a := by omega
      have : o - A.length - D.length = 0 := by omega
      rw [this, List.drop_zero, hoA]
      congr 1
      simp [List.append_assoc]
    · rw [if_neg h2]
      by_cases h3 : o < a + d + e
      · rw [if_pos h3, list_from_experts_eq w h (o - (a + d)), hvirt]
        rw [List.drop_append_eq_append_drop, List.drop_append_eq_append_drop,
          List.drop_append_eq_append_drop]
        rw [List.drop_eq_nil_of_le (by omega : A.length ≤ o),
          List.drop_eq_nil_of_le (by omega : D.length ≤ o - A.length)]
        have hoE : o - A.length - D.length = o - (a + d) := by omega
        have : o - A.length - D.length - E.length = 0 := by omega
        rw [this, List.drop_zero, hoE]
        congr 1
        simp [List.append_assoc]
      · rw [if_neg h3]
        by_cases h4 : o < a + d + e + n
        · rw [if_pos h4, list_from_news_eq w h (o - (a + d + e)), hvirt]
          rw [List.drop_append_eq_append_drop, List.drop_append_eq_append_drop,
            List.drop_append_eq_append_drop, List.drop_append_eq_append_drop]
          rw [List.drop_eq_nil_of_le (by omega : A.length ≤ o),
            List.drop_eq_nil_of_le (by omega : D.length ≤ o - A.length),
            List.drop_eq_nil_of_le (by omega : E.length ≤ o - A.length - D.length)]
          have hoN : o - A.length - D.length - E.length = o - (a + d + e) := by omega
          have : o - A.length - D.length - E.length - N.length = 0 := by omega
          rw [this, List.drop_zero, hoN]
          simp
        · rw [if_neg h4]
          rw [list_brief_eq w h .PROJECT (o - (a + d + e + n))]
          simp only [exceptBindOk, exceptPureEq, ← hp, ← hP]
          rw [List.take_take, Nat.min_self, hvirt]
          rw [List.drop_append_eq_append_drop, List.drop_append_eq_append_drop,
            List.drop_append_eq_append_drop, List.drop_append_eq_append_drop]
          rw [List.drop_eq_nil_of_le (by omega : A.length ≤ o),
            List.drop_eq_nil_of_le (by omega : D.length ≤ o - A.length),
            List.drop_eq_nil_of_le (by omega : E.length ≤ o - A.length - D.length),
            List.drop_eq_nil_of_le
              (by omega : N.length ≤ o - A.length - D.length - E.length)]
          have hoP : o - A.length - D.length - E.length - N.length = o - (a + d + e + n) := by
            omega
          rw [hoP]
          simp

theorem virtual_length (w : PdnHarvesterWorker) :
    w.virtualBriefs.length = w.totalAvailable := by
  unfold PdnHarvesterWorker.virtualBriefs PdnHarvesterWorker.totalAvailable
  simp [List.length_append, length_typeBriefs]
  omega

theorem mem_virtual_elim (w : PdnHarvesterWorker) (b : BriefRemoteResource)
    (hb : b ∈ w.virtualBriefs) :
    ∃ t r, w.should_list t = true ∧ r ∈ w.remote.getCollection t ∧
      b = listBriefOneTotal t r := by
  unfold PdnHarvesterWorker.virtualBriefs at hb
  have elim1 : ∀ t : PdnResourceType, b ∈ w.typeBriefs t →
      ∃ t1 r, w.should_list t1 = true ∧ r ∈ w.remote.getCollection t1 ∧
        b = listBriefOneTotal t1 r := by
    intro t hbt
    unfold PdnHarvesterWorker.typeBriefs at hbt
    by_cases hsl : w.should_list t
    · rw [if_pos hsl] at hbt
      obtain ⟨r, hr, hbr⟩ := List.mem_map.mp hbt
      exact ⟨t, r, hsl, hr, hbr.symm⟩
    · rw [if_neg hsl] at hbt
      cases hbt
  simp only [List.mem_append] at hb
  rcases hb with ((((h1 | h2) | h3) | h4) | h5)
  · exact elim1 .ALERT h1
  · exact elim1 .DOCUMENT h2
  · exact elim1 .EXPERT h3
  · exact elim1 .NEWS_ARTICLE h4
  · exact elim1 .PROJECT h5

theorem value_injective (t1 t2 : PdnResourceType)
    (h : t1.value = t2.value) : t1 = t2 := by
  cases t1 <;> cases t2 <;> simp_all [PdnResourceType.value]

theorem pyTrunc_length (s : String) (n : Nat) :
    (pyTrunc s n).length = min n s.length := by
  unfold pyTrunc
  show (s.data.take n).length = min n s.data.length
  exact List.length_take n s.data

/-- C1: for a well-formed worker, the virtual page starting at any global
offset o is returned without error and has exactly
min(page_size, total - o) brief resources; in particular any offset at or
past the total yields the empty list. -/
theorem pdn_list_resources_page_length (w : PdnHarvesterWorker)
    (h : w.wellFormed = true) (o : Nat) :
    ∃ page, w.list_resources o = .ok page ∧
      page.length = min w.page_size (w.totalAvailable - o) ∧
      (w.totalAvailable ≤ o → page = []) := by
  refine ⟨_, list_resources_eq_virtual w h o, ?_, ?_⟩
  · rw [List.length_take, List.length_drop, virtual_length]
  · intro hle
    rw [List.drop_eq_nil_of_le (by rw [virtual_length]; omega), List.take_nil]

/-- C2: pages are served from the canonical concatenation of the enabled
collections (alert, document, experts, news, project): every page is a
window of that virtual sequence, and a page whose offset lies in the alert
range consists of the remaining alert records followed, in canonical order,
by records of the subsequent types taken from their own offset zero. -/
theorem pdn_list_resources_canonical_order (w : PdnHarvesterWorker)
    (h : w.wellFormed = true) :
    (∀ o, w.list_resources o = .ok ((w.virtualBriefs.drop o).take w.page_size)) ∧
    (∀ o, o < w.numAvailable .ALERT →
      w.list_resources o = .ok (((w.typeBriefs .ALERT).drop o ++ w.typeBriefs .DOCUMENT ++
        w.typeBriefs .EXPERT ++ w.typeBriefs .NEWS_ARTICLE ++
        w.typeBriefs .PROJECT).take w.page_size)) := by
  constructor
  · exact fun o => list_resources_eq_virtual w h o
  · intro o ho
    rw [list_resources_eq_virtual w h o]
    congr 2
    have hvirt : w.virtualBriefs = w.typeBriefs .ALERT ++ (w.typeBriefs .DOCUMENT ++
        (w.typeBriefs .EXPERT ++ (w.typeBriefs .NEWS_ARTICLE ++ w.typeBriefs .PROJECT))) := by
      unfold PdnHarvesterWorker.virtualBriefs
      simp [List.append_assoc]
    rw [hvirt, List.drop_append_eq_append_drop]
    have : o - (w.typeBriefs .ALERT).length = 0 := by
      rw [length_typeBriefs]
      omega
    rw [this, List.drop_zero]
    simp [List.append_assoc]

/-- C3: a disabled collection type counts zero toward the per-type counts
(hence toward the total and every prefix-sum boundary), and no brief
resource of a disabled type ever appears in any returned page, regardless
of what the remote service holds for that type. -/
theorem pdn_disabled_type_invisible (w : PdnHarvesterWorker)
    (h : w.wellFormed = true) (t : PdnResourceType)
    (hdis : w.should_list t = false) :
    w.numAvailable t = 0 ∧
    ∀ o page b, w.list_resources o = .ok page → b ∈ page →
      b.resource_type ≠ t.value := by
  constructor
  · unfold PdnHarvesterWorker.numAvailable
    rw [if_neg (by rw [hdis]; exact Bool.false_ne_true)]
  · intro o page b hpage hb
    rw [list_resources_eq_virtual w h o] at hpage
    injection hpage with hpage
    subst hpage
    have hbv : b ∈ w.virtualBriefs :=
      List.mem_of_mem_drop (List.mem_of_mem_take hb)
    obtain ⟨t1, r, hsl1, _, hbr⟩ := mem_virtual_elim w b hbv
    subst hbr
    show (listBriefOneTotal t1 r).resource_type ≠ t.value
    intro hval
    have : t1 = t := value_injective t1 t hval
    rw [this, hdis] at hsl1
    exact Bool.false_ne_true hsl1

/-- C7: every brief resource emitted in any page has a title of at most 255
characters, and whenever the constructed raw title reaches 255 characters
the emitted title is cut to exactly 255. -/
theorem pdn_title_truncation (w : PdnHarvesterWorker) (h : w.wellFormed = true) :
    (∀ o page b, w.list_resources o = .ok page → b ∈ page →
      b.title.length ≤ 255) ∧
    (∀ t r, 255 ≤ (mkBriefTitleTotal t r).length →
      (listBriefOneTotal t r).title.length = 255) := by
  constructor
  · intro o page b hpage hb
    rw [list_resources_eq_virtual w h o] at hpage
    injection hpage with hpage
    subst hpage
    have hbv : b ∈ w.virtualBriefs :=
      List.mem_of_mem_drop (List.mem_of_mem_take hb)
    obtain ⟨t1, r, _, _, hbr⟩ := mem_virtual_elim w b hbv
    subst hbr
    show (pyTrunc (mkBriefTitleTotal t1 r) 255).length ≤ 255
    rw [pyTrunc_length]
    omega
  · intro t r hlong
    show (pyTrunc (mkBriefTitleTotal t r) 255).length = 255
    rw [pyTrunc_length]
    omega

/-- A demonstration raw record carrying every field that page enumeration
indexes directly. -/
def demoRecord : RawRecord :=
  [("id", JsonValue.num 1), ("subject", JsonValue.str "subj"),
   ("name", JsonValue.str "nm"), ("title", JsonValue.str "ttl"),
   ("acronym", JsonValue.str "ac")]

/-- A demonstration worker: documents disabled (although the remote holds
one document record), three alerts, two experts, no news, five projects,
page size four, no filters. -/
def wDemo : PdnHarvesterWorker :=
  ⟨true, false, true, true, true, 4, none, none, none, none, none, none, none, none,
   ⟨[demoRecord, demoRecord, demoRecord], [demoRecord], [demoRecord, demoRecord], [],
    [demoRecord, demoRecord, demoRecord, demoRecord, demoRecord]⟩⟩

theorem pdn_list_resources_page_length_witness :
    wDemo.wellFormed = true ∧
    ∃ page, wDemo.list_resources 2 = .ok page ∧
      page.length = min wDemo.page_size (wDemo.totalAvailable - 2) ∧
      (wDemo.totalAvailable ≤ 2 → page = []) :=
  ⟨by decide, pdn_list_resources_page_length wDemo (by decide) 2⟩

theorem pdn_list_resources_canonical_order_witness :
    wDemo.wellFormed = true ∧ 2 < wDemo.numAvailable .ALERT ∧
    wDemo.list_resources 2 = .ok (((wDemo.typeBriefs .ALERT).drop 2 ++
      wDemo.typeBriefs .DOCUMENT ++ wDemo.typeBriefs .EXPERT ++
      wDemo.typeBriefs .NEWS_ARTICLE ++ wDemo.typeBriefs .PROJECT).take wDemo.page_size) :=
  ⟨by decide, by decide,
    (pdn_list_resources_canonical_order wDemo (by decide)).2 2 (by decide)⟩

theorem pdn_disabled_type_invisible_witness :
    wDemo.wellFormed = true ∧ wDemo.should_list .DOCUMENT = false ∧
    (wDemo.numAvailable .DOCUMENT = 0 ∧
      ∀ o page b, wDemo.list_resources o = .ok page → b ∈ page →
        b.resource_type ≠ PdnResourceType.DOCUMENT.value) :=
  ⟨by decide, by decide,
    pdn_disabled_type_invisible wDemo (by decide) .DOCUMENT (by decide)⟩

/-- A news record whose title is three hundred characters long. -/
def longNewsRecord : RawRecord :=
  [("id", JsonValue.num 1), ("title", JsonValue.str (String.mk (List.replicate 300 'x')))]

set_option maxRecDepth 10000 in
theorem pdn_title_truncation_witness :
    wDemo.wellFormed = true ∧
    255 ≤ (mkBriefTitleTotal .NEWS_ARTICLE longNewsRecord).length ∧
    (listBriefOneTotal .NEWS_ARTICLE longNewsRecord).title.length = 255 :=
  ⟨by decide, by decide,
    (pdn_title_truncation wDemo (by decide)).2 .NEWS_ARTICLE longNewsRecord (by decide)⟩

theorem parseOptionalDateField_of_none (raw : RawRecord) (k : String)
    (h : rawLookup raw k = none) : parseOptionalDateField raw k = .ok none := by
  unfold parseOptionalDateField
  rw [h]

theorem parseOptionalDateField_of_some (raw : RawRecord) (k : String) (v : JsonValue)
    (h : rawLookup raw k = some v) :
    parseOptionalDateField raw k = dateutilParseValue v >>= (fun d => pure (some d)) := by
  unfold parseOptionalDateField
  rw [h]

/-- C4 counterexample: the raw record holds the `ignore` key with a null
value; the claim says a null field receives the stated default (false), but
the reconciler's get-with-default only substitutes the default when the key
is absent, so the computed row stores null. -/
theorem pdn_alert_null_field_counterexample :
    updateAlertRecord [("id", JsonValue.num 1), ("ignore", JsonValue.null)] =
      Except.ok ⟨JsonValue.num 1, JsonValue.str "", JsonValue.str "", none,
        JsonValue.null, JsonValue.str "", JsonValue.str "", JsonValue.num 0⟩ ∧
    rawLookup [("id", JsonValue.num 1), ("ignore", JsonValue.null)] "ignore" =
      some JsonValue.null ∧
    JsonValue.null ≠ JsonValue.bool false :=
  ⟨rfl, rfl, by decide⟩

/-- C4 amended: each mapped alert field receives the raw value whenever the
key is present (a present null is stored as null, not as the default) and
the stated default only when the key is absent; the received date is null
exactly when its key is absent; and the concrete scenario holds: reconciling
the Flood record with no prior record creates exactly one Alert with
remote_id 7, subject Flood, empty content, ignore false and source_id 0. -/
theorem pdn_alert_reconciliation_amended :
    (∀ raw row, updateAlertRecord raw = Except.ok row →
      row.content = rawGetD raw "content" (JsonValue.str "") ∧
      row.countries = rawGetD raw "countries" (JsonValue.str "") ∧
      row.ignore = rawGetD raw "ignore" (JsonValue.bool false) ∧
      row.subject = rawGetD raw "subject" (JsonValue.str "") ∧
      row.uuid = rawGetD raw "uuid" (JsonValue.str "") ∧
      row.source_id = rawGetD raw "source_id" (JsonValue.num 0) ∧
      rawLookup raw "id" = some row.remote_id ∧
      (rawLookup raw "daterecieved" = none → row.daterecieved = none)) ∧
    (∃ row, updateAlertRecord [("id", JsonValue.num 7), ("subject", JsonValue.str "Flood"),
        ("daterecieved", JsonValue.str "2024-01-02T00:00:00Z")] = Except.ok row ∧
      row.remote_id = JsonValue.num 7 ∧ row.subject = JsonValue.str "Flood" ∧
      row.content = JsonValue.str "" ∧ row.ignore = JsonValue.bool false ∧
      row.source_id = JsonValue.num 0 ∧
      alertUpdateOrCreate [] row = [row]) := by
  constructor
  · intro raw row h
    unfold updateAlertRecord at h
    cases hpd : parseOptionalDateField raw "daterecieved" with
    | error e => rw [hpd] at h; exact absurd h (by simp)
    | ok date0 =>
        rw [hpd] at h
        simp only [exceptBindOk] at h
        unfold rawIndex at h
        cases hid : rawLookup raw "id" with
        | none => rw [hid] at h; exact absurd h (by simp)
        | some idv =>
            rw [hid] at h
            simp only [exceptBindOk, exceptPureEq] at h
            injection h with h
            subst h
            refine ⟨rfl, rfl, rfl, rfl, rfl, rfl, rfl, fun hc => ?_⟩
            rw [parseOptionalDateField_of_none raw "daterecieved" hc] at hpd
            injection hpd with hpd
            exact hpd.symm
  · exact ⟨⟨JsonValue.num 7, JsonValue.str "", JsonValue.str "",
      some ⟨2024, 1, 2, 0, 0, 0, 0, some 0⟩, JsonValue.bool false,
      JsonValue.str "Flood", JsonValue.str "", JsonValue.num 0⟩,
      rfl, rfl, rfl, rfl, rfl, rfl, rfl⟩

theorem pdn_alert_reconciliation_amended_witness :
    updateAlertRecord [("id", JsonValue.num 1), ("ignore", JsonValue.null)] =
      Except.ok ⟨JsonValue.num 1, JsonValue.str "", JsonValue.str "", none,
        JsonValue.null, JsonValue.str "", JsonValue.str "", JsonValue.num 0⟩ ∧
    (JsonValue.null : JsonValue) =
      rawGetD [("id", JsonValue.num 1), ("ignore", JsonValue.null)] "ignore"
        (JsonValue.bool false) :=
  ⟨rfl,
    ((pdn_alert_reconciliation_amended.1
      [("id", JsonValue.num 1), ("ignore", JsonValue.null)]
      ⟨JsonValue.num 1, JsonValue.str "", JsonValue.str "", none,
        JsonValue.null, JsonValue.str "", JsonValue.str "", JsonValue.num 0⟩
      rfl).2.2.1)⟩

/-- C5 counterexample: a present but malformed date text makes the alert and
news reconcilers raise `ValueError` (only `KeyError` is caught), instead of
completing with an unset date as the claim states. -/
theorem pdn_malformed_date_counterexample :
    updateAlertRecord [("id", JsonValue.num 1), ("daterecieved", JsonValue.str "not-a-date")] =
      Except.error PyErr.valueError ∧
    updateNewsRecord [("id", JsonValue.num 2), ("date", JsonValue.str "bogus")] =
      Except.error PyErr.valueError :=
  ⟨rfl, rfl⟩

/-- C5 amended: absence of the date field yields an unset date and the
reconciliation completes; but a present date value whose parse fails makes
the reconciliation propagate that parse error (the handler catches only the
key-absence error), for both the alert and the news reconcilers. -/
theorem pdn_date_error_handling_amended :
    (∀ raw row, rawLookup raw "daterecieved" = none →
      updateAlertRecord raw = Except.ok row → row.daterecieved = none) ∧
    (∀ raw v e, rawLookup raw "daterecieved" = some v →
      dateutilParseValue v = Except.error e → updateAlertRecord raw = Except.error e) ∧
    (∀ raw row, rawLookup raw "date" = none →
      updateNewsRecord raw = Except.ok row → row.date = none) ∧
    (∀ raw v e, rawLookup raw "date" = some v →
      dateutilParseValue v = Except.error e → updateNewsRecord raw = Except.error e) := by
  refine ⟨?_, ?_, ?_, ?_⟩
  · intro raw row hdr h
    unfold updateAlertRecord at h
    rw [parseOptionalDateField_of_none raw "daterecieved" hdr] at h
    simp only [exceptBindOk] at h
    unfold rawIndex at h
    cases hid : rawLookup raw "id" with
    | none => rw [hid] at h; exact absurd h (by simp)
    | some idv =>
        rw [hid] at h
        simp only [exceptBindOk, exceptPureEq] at h
        injection h with h
        subst h
        rfl
  · intro raw v e hdr hpv
    unfold updateAlertRecord
    rw [parseOptionalDateField_of_some raw "daterecieved" v hdr, hpv]
    rfl
  · intro raw row hdr h
    unfold updateNewsRecord at h
    rw [parseOptionalDateField_of_none raw "date" hdr] at h
    simp only [exceptBindOk] at h
    unfold rawIndex at h
    cases hid : rawLookup raw "id" with
    | none => rw [hid] at h; exact absurd h (by simp)
    | some idv =>
        rw [hid] at h
        simp only [exceptBindOk, exceptPureEq] at h
        injection h with h
        subst h
        rfl
  · intro raw v e hdr hpv
    unfold updateNewsRecord
    rw [parseOptionalDateField_of_some raw "date" v hdr, hpv]
    rfl

theorem pdn_date_error_handling_amended_witness :
    updateAlertRecord [("id", JsonValue.num 3)] =
      Except.ok ⟨JsonValue.num 3, JsonValue.str "", JsonValue.str "", none,
        JsonValue.bool false, JsonValue.str "", JsonValue.str "", JsonValue.num 0⟩ ∧
    (⟨JsonValue.num 3, JsonValue.str "", JsonValue.str "", none,
        JsonValue.bool false, JsonValue.str "", JsonValue.str "",
        JsonValue.num 0⟩ : AlertRow).daterecieved = none :=
  ⟨rfl,
    pdn_date_error_handling_amended.1 [("id", JsonValue.num 3)] _ rfl rfl⟩

theorem isDigitChar_digitChar (d : Nat) : isDigitChar (digitChar d) = true := by
  unfold digitChar
  split_ifs <;> decide

theorem digitVal_digitChar (d : Nat) (h : d < 10) : digitVal (digitChar d) = d := by
  unfold digitChar
  split_ifs with h0 h1 h2 h3 h4 h5 h6 h7 h8
  · subst h0; decide
  · subst h1; decide
  · subst h2; decide
  · subst h3; decide
  · subst h4; decide
  · subst h5; decide
  · subst h6; decide
  · subst h7; decide
  · subst h8; decide
  · have h9 : d = 9 := by omega
    subst h9; decide

theorem natDigitsGo_append (fuel : Nat) :
    ∀ n acc, natDigitsGo fuel n acc = natDigitsGo fuel n [] ++ acc := by
  induction fuel with
  | zero => intro n acc; rfl
  | succ fuel ih =>
      intro n acc
      by_cases h : n = 0
      · simp [natDigitsGo, h]
      · simp only [natDigitsGo, if_neg h]
        rw [ih (n / 10) (digitChar (n % 10) :: acc), ih (n / 10) [digitChar (n % 10)]]
        simp

theorem natDigitsGo_all_digits (fuel : Nat) :
    ∀ n, ∀ c ∈ natDigitsGo fuel n [], isDigitChar c = true := by
  induction fuel with
  | zero => intro n c hc; cases hc
  | succ fuel ih =>
      intro n c hc
      by_cases h : n = 0
      · simp [natDigitsGo, h] at hc
      · simp only [natDigitsGo, if_neg h] at hc
        rw [natDigitsGo_append fuel (n / 10) [digitChar (n % 10)]] at hc
        rcases List.mem_append.mp hc with hin | hin
        · exact ih (n / 10) c hin
        · rw [List.mem_singleton.mp hin]
          exact isDigitChar_digitChar (n % 10)

theorem charsVal_natDigitsGo (fuel : Nat) :
    ∀ n, n ≤ fuel → charsVal (natDigitsGo fuel n []) = n := by
  induction fuel with
  | zero =>
      intro n hn
      have : n = 0 := by omega
      subst this
      rfl
  | succ fuel ih =>
      intro n hn
      by_cases h : n = 0
      · subst h
        rfl
      · simp only [natDigitsGo, if_neg h]
        rw [natDigitsGo_append fuel (n / 10) [digitChar (n % 10)]]
        unfold charsVal
        rw [List.foldl_append]
        show charsVal (natDigitsGo fuel (n / 10) []) * 10 + digitVal (digitChar (n % 10)) = n
        have hd : n / 10 < n := Nat.div_lt_self (Nat.pos_of_ne_zero h) (by decide)
        rw [ih (n / 10) (by omega), digitVal_digitChar (n % 10) (Nat.mod_lt n (by decide))]
        omega

theorem natStr_all_digits (n : Nat) : ∀ c ∈ (natStr n).data, isDigitChar c = true := by
  unfold natStr
  by_cases h : n = 0
  · rw [if_pos h]
    intro c hc
    simp only [show ("0" : String).data = ['0'] from rfl, List.mem_singleton] at hc
    rw [hc]
    decide
  · rw [if_neg h]
    exact natDigitsGo_all_digits n n

theorem natDigitsGo_ne_nil (fuel n : Nat) (h : n ≠ 0) :
    natDigitsGo (fuel + 1) n [] ≠ [] := by
  simp only [natDigitsGo, if_neg h]
  rw [natDigitsGo_append fuel (n / 10) [digitChar (n % 10)]]
  simp

theorem natStr_ne_nil (n : Nat) : (natStr n).data ≠ [] := by
  unfold natStr
  by_cases h : n = 0
  · rw [if_pos h]
    decide
  · rw [if_neg h]
    show natDigitsGo n n [] ≠ []
    obtain ⟨m, hm⟩ : ∃ m, n = m + 1 := ⟨n - 1, by omega⟩
    rw [hm]
    exact natDigitsGo_ne_nil m (m + 1) (by omega)

theorem charsVal_natStr (n : Nat) : charsVal (natStr n).data = n := by
  unfold natStr
  by_cases h : n = 0
  · rw [if_pos h, h]
    decide
  · rw [if_neg h]
    exact charsVal_natDigitsGo n n (Nat.le_refl n)

theorem takeWhile_append_all (p : α → Bool) (xs : List α) (y : α) (ys : List α)
    (hxs : ∀ x ∈ xs, p x = true) (hy : p y = false) :
    (xs ++ y :: ys).takeWhile p = xs := by
  induction xs with
  | nil => simp [List.takeWhile, hy]
  | cons x xs ih =>
      have hx : p x = true := hxs x (List.mem_cons_self x xs)
      simp only [List.cons_append, List.takeWhile, hx]
      exact congrArg (x :: ·) (ih (fun z hz => hxs z (List.mem_cons_of_mem x hz)))

theorem dropWhile_append_all (p : α → Bool) (xs : List α) (y : α) (ys : List α)
    (hxs : ∀ x ∈ xs, p x = true) (hy : p y = false) :
    (xs ++ y :: ys).dropWhile p = y :: ys := by
  induction xs with
  | nil => simp [List.dropWhile, hy]
  | cons x xs ih =>
      have hx : p x = true := hxs x (List.mem_cons_self x xs)
      simp only [List.cons_append, List.dropWhile, hx]
      exact ih (fun z hz => hxs z (List.mem_cons_of_mem x hz))

theorem digit_not_dash (c : Char) (h : isDigitChar c = true) : (!(c == '-')) = true := by
  cases hb : c == '-'
  · rfl
  · have hc : c = '-' := eq_of_beq hb
    rw [hc] at h
    exact absurd h (by decide)

theorem pyInt_natStr (n : Nat) : pyInt (natStr n) = .ok (n : Int) := by
  unfold pyInt
  cases hcs : (natStr n).data with
  | nil => exact absurd hcs (natStr_ne_nil n)
  | cons c rest =>
      have hall : ∀ x ∈ (natStr n).data, isDigitChar x = true := natStr_all_digits n
      rw [hcs] at hall
      have hc : isDigitChar c = true := hall c (List.mem_cons_self c rest)
      have hdash : ¬((c == '-') = true) := by
        have hnot := digit_not_dash c hc
        simp only [Bool.not_eq_true'] at hnot
        simp [hnot]
      have hplus : ¬((c == '+') = true) := by
        cases hb : c == '+'
        · simp
        · have hcp : c = '+' := eq_of_beq hb
          rw [hcp] at hc
          exact absurd hc (by decide)
      simp only [pyIntChars]
      rw [if_neg hdash, if_neg hplus, if_pos (List.all_eq_true.mpr hall)]
      rw [← hcs, charsVal_natStr]

theorem composite_data (t : String) (n : Nat) :
    (t ++ "-" ++ natStr n).data = t.data ++ '-' :: (natStr n).data := by
  rw [String.data_append, String.data_append]
  simp [show ("-" : String).data = ['-'] from rfl]

theorem rpartitionTail_composite (t : String) (n : Nat) :
    rpartitionTail (t ++ "-" ++ natStr n) = natStr n := by
  unfold rpartitionTail
  rw [composite_data]
  rw [show (t.data ++ '-' :: (natStr n).data).reverse =
    (natStr n).data.reverse ++ '-' :: t.data.reverse by simp]
  rw [takeWhile_append_all _ _ '-' _
    (fun x hx => digit_not_dash x (natStr_all_digits n x (List.mem_reverse.mp hx)))
    (by decide)]
  rw [List.reverse_reverse]

theorem rpartitionHead_composite (t : String) (n : Nat) :
    rpartitionHead (t ++ "-" ++ natStr n) = t := by
  unfold rpartitionHead
  rw [composite_data]
  rw [show (t.data ++ '-' :: (natStr n).data).reverse =
    (natStr n).data.reverse ++ '-' :: t.data.reverse by simp]
  rw [dropWhile_append_all _ _ '-' _
    (fun x hx => digit_not_dash x (natStr_all_digits n x (List.mem_reverse.mp hx)))
    (by decide)]
  show String.mk t.data.reverse.reverse = t
  rw [List.reverse_reverse]

/-- C6 counterexample: for the numeric remote id -5 (ids are signed big
integers locally) the composite id is alert--5, and splitting on the last
separator occurrence recovers the text 5 and the number 5, not the original
remote id -5, even though the type name alert contains no separator. -/
theorem pdn_composite_id_counterexample :
    makeUniqueIdentifier "alert" (-5) = "alert--5" ∧
    rpartitionTail (makeUniqueIdentifier "alert" (-5)) = "5" ∧
    rpartitionTail (makeUniqueIdentifier "alert" (-5)) ≠ pyIntStr (-5) ∧
    pyInt (rpartitionTail (makeUniqueIdentifier "alert" (-5))) = .ok 5 ∧
    (5 : Int) ≠ -5 := by
  refine ⟨by rfl, by rfl, ?_, by rfl, by decide⟩
  intro h
  exact absurd (congrArg String.data h) (by decide)

/-- C6 amended: for every type name free of the separator character and
every nonnegative numeric remote id, building the composite id and splitting
on the last separator occurrence recovers the type prefix and exactly the
original remote id (both as text and after integer parsing); a negative id,
whose text itself contains the separator, is not recovered. -/
theorem pdn_composite_id_roundtrip_amended (t : String) (_ht : '-' ∉ t.data)
    (n : Int) (hn : 0 ≤ n) :
    rpartitionHead (makeUniqueIdentifier t n) = t ∧
    rpartitionTail (makeUniqueIdentifier t n) = pyIntStr n ∧
    pyInt (rpartitionTail (makeUniqueIdentifier t n)) = .ok n := by
  have hpy : pyIntStr n = natStr n.toNat := by
    unfold pyIntStr
    rw [if_neg (by omega : ¬n < 0)]
  unfold makeUniqueIdentifier
  rw [hpy]
  refine ⟨rpartitionHead_composite t n.toNat, rpartitionTail_composite t n.toNat, ?_⟩
  rw [rpartitionTail_composite t n.toNat, pyInt_natStr]
  congr 1
  omega

theorem pdn_composite_id_roundtrip_amended_witness :
    ('-' ∉ ("project" : String).data) ∧ (0 : Int) ≤ 99 ∧
    (rpartitionHead (makeUniqueIdentifier "project" 99) = "project" ∧
      rpartitionTail (makeUniqueIdentifier "project" 99) = pyIntStr 99 ∧
      pyInt (rpartitionTail (makeUniqueIdentifier "project" 99)) = .ok 99) :=
  ⟨by decide, by decide,
    pdn_composite_id_roundtrip_amended "project" (by decide) 99 (by decide)⟩

theorem renderDateFilter_none : renderDateFilter none = .ok none := rfl

theorem renderDateFilter_some (s : String) (dt : PyDatetime)
    (h : dateutilParse s = .ok dt) :
    renderDateFilter (some s) = .ok (some (utcZFormat dt)) := by
  simp [renderDateFilter, h]

/-- C8: the news and alert filter builders produce an empty predicate when
no bound is configured, a single gte or lte inequality on the type-specific
date field (rendered as a Z-suffixed whole-second UTC string) when exactly
one bound is configured, and one conjunction combining both comparisons when
both are; the concrete scenario renders the configured start
2024-01-01T00:00:00+00:00 as gte.2024-01-01T00:00:00Z. -/
theorem pdn_filter_params_spec :
    (∀ w : PdnHarvesterWorker,
      w.news_start_date_filter = some "2024-01-01T00:00:00+00:00" →
      w.news_end_date_filter = none →
      w.get_news_article_params = .ok [("date", "gte.2024-01-01T00:00:00Z")]) ∧
    (∀ w : PdnHarvesterWorker, w.news_start_date_filter = none →
      w.news_end_date_filter = none → w.get_news_article_params = .ok []) ∧
    (∀ (w : PdnHarvesterWorker) s dt, w.news_start_date_filter = some s →
      w.news_end_date_filter = none → dateutilParse s = .ok dt →
      w.get_news_article_params = .ok [("date", "gte." ++ utcZFormat dt)]) ∧
    (∀ (w : PdnHarvesterWorker) e dt, w.news_start_date_filter = none →
      w.news_end_date_filter = some e → dateutilParse e = .ok dt →
      w.get_news_article_params = .ok [("date", "lte." ++ utcZFormat dt)]) ∧
    (∀ (w : PdnHarvesterWorker) s e ds de, w.news_start_date_filter = some s →
      w.news_end_date_filter = some e → dateutilParse s = .ok ds →
      dateutilParse e = .ok de →
      w.get_news_article_params =
        .ok [("and", "(date.gte." ++ utcZFormat ds ++ ",date.lte." ++ utcZFormat de ++ ")")]) ∧
    (∀ w : PdnHarvesterWorker, w.alerts_start_date_filter = none →
      w.alerts_end_date_filter = none → w.get_alert_params = .ok []) ∧
    (∀ (w : PdnHarvesterWorker) s dt, w.alerts_start_date_filter = some s →
      w.alerts_end_date_filter = none → dateutilParse s = .ok dt →
      w.get_alert_params = .ok [("daterecieved", "gte." ++ utcZFormat dt)]) ∧
    (∀ (w : PdnHarvesterWorker) e dt, w.alerts_start_date_filter = none →
      w.alerts_end_date_filter = some e → dateutilParse e = .ok dt →
      w.get_alert_params = .ok [("daterecieved", "lte." ++ utcZFormat dt)]) ∧
    (∀ (w : PdnHarvesterWorker) s e ds de, w.alerts_start_date_filter = some s →
      w.alerts_end_date_filter = some e → dateutilParse s = .ok ds →
      dateutilParse e = .ok de →
      w.get_alert_params =
        .ok [("and", "(daterecieved.gte." ++ utcZFormat ds ++ ",daterecieved.lte." ++
          utcZFormat de ++ ")")]) := by
  have hnews : ∀ (w : PdnHarvesterWorker) a b,
      renderDateFilter w.news_start_date_filter = .ok a →
      renderDateFilter w.news_end_date_filter = .ok b →
      w.get_news_article_params = (match a, b with
        | some s, some e => .ok [("and", "(date.gte." ++ s ++ ",date.lte." ++ e ++ ")")]
        | some s, none => .ok [("date", "gte." ++ s)]
        | none, some e => .ok [("date", "lte." ++ e)]
        | none, none => .ok []) := by
    intro w a b hs he
    unfold PdnHarvesterWorker.get_news_article_params
    rw [hs, he]
    cases a <;> cases b <;> rfl
  have halert : ∀ (w : PdnHarvesterWorker) a b,
      renderDateFilter w.alerts_start_date_filter = .ok a →
      renderDateFilter w.alerts_end_date_filter = .ok b →
      w.get_alert_params = (match a, b with
        | some s, some e =>
            .ok [("and", "(daterecieved.gte." ++ s ++ ",daterecieved.lte." ++ e ++ ")")]
        | some s, none => .ok [("daterecieved", "gte." ++ s)]
        | none, some e => .ok [("daterecieved", "lte." ++ e)]
        | none, none => .ok []) := by
    intro w a b hs he
    unfold PdnHarvesterWorker.get_alert_params
    rw [hs, he]
    cases a <;> cases b <;> rfl
  refine ⟨?_, ?_, ?_, ?_, ?_, ?_, ?_, ?_, ?_⟩
  · intro w hs he
    have hparse : dateutilParse "2024-01-01T00:00:00+00:00" =
        .ok ⟨2024, 1, 1, 0, 0, 0, 0, some 0⟩ := rfl
    have := hnews w (some (utcZFormat ⟨2024, 1, 1, 0, 0, 0, 0, some 0⟩)) none
      (by rw [hs]; exact renderDateFilter_some _ _ hparse)
      (by rw [he]; exact renderDateFilter_none)
    rw [this]
    rfl
  · intro w hs he
    exact hnews w none none (by rw [hs]; rfl) (by rw [he]; rfl)
  · intro w s dt hs he hp
    exact hnews w (some (utcZFormat dt)) none
      (by rw [hs]; exact renderDateFilter_some _ _ hp) (by rw [he]; rfl)
  · intro w e dt hs he hp
    exact hnews w none (some (utcZFormat dt))
      (by rw [hs]; rfl) (by rw [he]; exact renderDateFilter_some _ _ hp)
  · intro w s e ds de hs he hps hpe
    exact hnews w (some (utcZFormat ds)) (some (utcZFormat de))
      (by rw [hs]; exact renderDateFilter_some _ _ hps)
      (by rw [he]; exact renderDateFilter_some _ _ hpe)
  · intro w hs he
    exact halert w none none (by rw [hs]; rfl) (by rw [he]; rfl)
  · intro w s dt hs he hp
    exact halert w (some (utcZFormat dt)) none
      (by rw [hs]; exact renderDateFilter_some _ _ hp) (by rw [he]; rfl)
  · intro w e dt hs he hp
    exact halert w none (some (utcZFormat dt))
      (by rw [hs]; rfl) (by rw [he]; exact renderDateFilter_some _ _ hp)
  · intro w s e ds de hs he hps hpe
    exact halert w (some (utcZFormat ds)) (some (utcZFormat de))
      (by rw [hs]; exact renderDateFilter_some _ _ hps)
      (by rw [he]; exact renderDateFilter_some _ _ hpe)

/-- A worker configured with only a news start date bound. -/
def wNewsStart : PdnHarvesterWorker :=
  ⟨true, true, true, true, true, 10, none, none, none, none, none,
   some "2024-01-01T00:00:00+00:00", none, none, ⟨[], [], [], [], []⟩⟩

theorem pdn_filter_params_spec_witness :
    wNewsStart.news_start_date_filter = some "2024-01-01T00:00:00+00:00" ∧
    wNewsStart.news_end_date_filter = none ∧
    wNewsStart.get_news_article_params = .ok [("date", "gte.2024-01-01T00:00:00Z")] :=
  ⟨rfl, rfl, pdn_filter_params_spec.1 wNewsStart rfl rfl⟩

/-- The number of rows in the typed store of a given type holding the given
remote id. -/
def storeCountForType (stores : LocalStores) (t : PdnResourceType) (rid : Int) : Nat :=
  match t with
  | .ALERT => stores.alerts.countP (fun r => r.remote_id == JsonValue.num rid)
  | .DOCUMENT => 0
  | .EXPERT => stores.experts.countP (fun r => r.remote_id == JsonValue.num rid)
  | .NEWS_ARTICLE => stores.news.countP (fun r => r.remote_id == JsonValue.num rid)
  | .PROJECT => stores.projects.countP (fun r => r.remote_id == JsonValue.num rid)

/-- The stores with every row of the given type holding the given remote id
removed. -/
def storeRemoveForType (stores : LocalStores) (t : PdnResourceType) (rid : Int) :
    LocalStores :=
  match t with
  | .ALERT => ⟨stores.alerts.filter (fun r => !(r.remote_id == JsonValue.num rid)),
      stores.experts, stores.news, stores.projects⟩
  | .DOCUMENT => stores
  | .EXPERT => ⟨stores.alerts,
      stores.experts.filter (fun r => !(r.remote_id == JsonValue.num rid)),
      stores.news, stores.projects⟩
  | .NEWS_ARTICLE => ⟨stores.alerts, stores.experts,
      stores.news.filter (fun r => !(r.remote_id == JsonValue.num rid)), stores.projects⟩
  | .PROJECT => ⟨stores.alerts, stores.experts, stores.news,
      stores.projects.filter (fun r => !(r.remote_id == JsonValue.num rid))⟩

theorem deleteByRemoteId_absent (getId : α → JsonValue) (rid : Int) (rows : List α)
    (h : rows.countP (fun r => getId r == JsonValue.num rid) = 0) :
    deleteByRemoteId getId rid rows = .ok rows := by
  unfold deleteByRemoteId
  have hf : rows.filter (fun r => getId r == JsonValue.num rid) = [] := by
    rw [← List.length_eq_zero, ← List.countP_eq_length_filter]
    exact h
  rw [hf]

theorem deleteByRemoteId_found (getId : α → JsonValue) (rid : Int) (rows : List α)
    (h : rows.countP (fun r => getId r == JsonValue.num rid) = 1) :
    deleteByRemoteId getId rid rows =
      .ok (rows.filter (fun r => !(getId r == JsonValue.num rid))) := by
  unfold deleteByRemoteId
  obtain ⟨x, hx⟩ := List.length_eq_one.mp
    (by rw [← List.countP_eq_length_filter]; exact h)
  rw [hx]

theorem countP_filter_not (p : α → Bool) (rows : List α) :
    (rows.filter (fun r => !(p r))).countP p = 0 := by
  rw [List.countP_eq_zero]
  intro a ha
  have hnp := (List.mem_filter.mp ha).2
  simp only [Bool.not_eq_true'] at hnp
  simp [hnp]

/-- C9: deleting the composite id of a typed local record parses out the
numeric remote id and removes the matching local record of that type; when
no such record exists the call returns without error and leaves the stores
unchanged. -/
theorem pdn_finalize_deletion_spec (stores : LocalStores) (t : PdnResourceType)
    (ht : t ≠ PdnResourceType.DOCUMENT) (n : Nat) :
    (storeCountForType stores t (n : Int) = 0 →
      finalizeResourceDeletion stores t.value (t.value ++ "-" ++ natStr n) = .ok stores) ∧
    (storeCountForType stores t (n : Int) = 1 →
      finalizeResourceDeletion stores t.value (t.value ++ "-" ++ natStr n) =
        .ok (storeRemoveForType stores t (n : Int)) ∧
      storeCountForType (storeRemoveForType stores t (n : Int)) t (n : Int) = 0) := by
  cases t with
  | DOCUMENT => exact absurd rfl ht
  | ALERT =>
      unfold finalizeResourceDeletion
      rw [show pdnResourceTypeOfValue PdnResourceType.ALERT.value =
        Except.ok PdnResourceType.ALERT from rfl]
      simp only [exceptBindOk]
      rw [if_neg (by decide :
        ¬((PdnResourceType.ALERT == PdnResourceType.DOCUMENT) = true))]
      rw [show rpartitionTail (PdnResourceType.ALERT.value ++ "-" ++ natStr n) =
        natStr n from rpartitionTail_composite _ n]
      rw [pyInt_natStr n]
      simp only [exceptBindOk, deleteInStores]
      constructor
      · intro h0
        rw [deleteByRemoteId_absent AlertRow.remote_id (n : Int) stores.alerts h0]
        rfl
      · intro h1
        rw [deleteByRemoteId_found AlertRow.remote_id (n : Int) stores.alerts h1]
        exact ⟨rfl, countP_filter_not _ stores.alerts⟩
  | EXPERT =>
      unfold finalizeResourceDeletion
      rw [show pdnResourceTypeOfValue PdnResourceType.EXPERT.value =
        Except.ok PdnResourceType.EXPERT from rfl]
      simp only [exceptBindOk]
      rw [if_neg (by decide :
        ¬((PdnResourceType.EXPERT == PdnResourceType.DOCUMENT) = true))]
      rw [show rpartitionTail (PdnResourceType.EXPERT.value ++ "-" ++ natStr n) =
        natStr n from rpartitionTail_composite _ n]
      rw [pyInt_natStr n]
      simp only [exceptBindOk, deleteInStores]
      constructor
      · intro h0
        rw [deleteByRemoteId_absent ExpertRow.remote_id (n : Int) stores.experts h0]
        rfl
      · intro h1
        rw [deleteByRemoteId_found ExpertRow.remote_id (n : Int) stores.experts h1]
        exact ⟨rfl, countP_filter_not _ stores.experts⟩
  | NEWS_ARTICLE =>
      unfold finalizeResourceDeletion
      rw [show pdnResourceTypeOfValue PdnResourceType.NEWS_ARTICLE.value =
        Except.ok PdnResourceType.NEWS_ARTICLE from rfl]
      simp only [exceptBindOk]
      rw [if_neg (by decide :
        ¬((PdnResourceType.NEWS_ARTICLE == PdnResourceType.DOCUMENT) = true))]
      rw [show rpartitionTail (PdnResourceType.NEWS_ARTICLE.value ++ "-" ++ natStr n) =
        natStr n from rpartitionTail_composite _ n]
      rw [pyInt_natStr n]
      simp only [exceptBindOk, deleteInStores]
      constructor
      · intro h0
        rw [deleteByRemoteId_absent NewsRow.remote_id (n : Int) stores.news h0]
        rfl
      · intro h1
        rw [deleteByRemoteId_found NewsRow.remote_id (n : Int) stores.news h1]
        exact ⟨rfl, countP_filter_not _ stores.news⟩
  | PROJECT =>
      unfold finalizeResourceDeletion
      rw [show pdnResourceTypeOfValue PdnResourceType.PROJECT.value =
        Except.ok PdnResourceType.PROJECT from rfl]
      simp only [exceptBindOk]
      rw [if_neg (by decide :
        ¬((PdnResourceType.PROJECT == PdnResourceType.DOCUMENT) = true))]
      rw [show rpartitionTail (PdnResourceType.PROJECT.value ++ "-" ++ natStr n) =
        natStr n from rpartitionTail_composite _ n]
      rw [pyInt_natStr n]
      simp only [exceptBindOk, deleteInStores]
      constructor
      · intro h0
        rw [deleteByRemoteId_absent ProjectRow.remote_id (n : Int) stores.projects h0]
        rfl
      · intro h1
        rw [deleteByRemoteId_found ProjectRow.remote_id (n : Int) stores.projects h1]
        exact ⟨rfl, countP_filter_not _ stores.projects⟩

theorem pdn_finalize_deletion_spec_witness :
    storeCountForType ⟨[], [], [], []⟩ PdnResourceType.PROJECT (99 : Int) = 0 ∧
    finalizeResourceDeletion ⟨[], [], [], []⟩ "project" "project-99" =
      .ok (⟨[], [], [], []⟩ : LocalStores) :=
  ⟨rfl, by
    have h := (pdn_finalize_deletion_spec ⟨[], [], [], []⟩ PdnResourceType.PROJECT
      (by decide) 99).1 rfl
    exact h⟩

theorem hasKey_false_elim (r : RawRecord) (k : String) (h : hasKey r k = false) :
    rawLookup r k = none := by
  cases hlk : rawLookup r k with
  | none => rfl
  | some v =>
      unfold hasKey at h
      rw [hlk] at h
      cases h

theorem mkBriefTitle_alert_keyError (r : RawRecord) (h : hasKey r "subject" = false) :
    mkBriefTitle .ALERT r = .error .keyError := by
  unfold mkBriefTitle rawIndex
  rw [hasKey_false_elim r "subject" h]
  rfl

theorem mkBriefTitle_expert_keyError (r : RawRecord)
    (h : hasKey r "name" = false ∨ hasKey r "title" = false) :
    mkBriefTitle .EXPERT r = .error .keyError := by
  unfold mkBriefTitle
  rcases h with hn | ht
  · unfold rawIndex
    rw [hasKey_false_elim r "name" hn]
    rfl
  · cases hlk : rawLookup r "name" with
    | none =>
        unfold rawIndex
        rw [hlk]
        rfl
    | some nv =>
        rw [rawIndex_of_lookup r "name" nv hlk]
        simp only [exceptBindOk]
        unfold rawIndex
        rw [hasKey_false_elim r "title" ht]
        rfl

theorem mkBriefTitle_news_keyError (r : RawRecord) (h : hasKey r "title" = false) :
    mkBriefTitle .NEWS_ARTICLE r = .error .keyError := by
  unfold mkBriefTitle rawIndex
  rw [hasKey_false_elim r "title" h]
  rfl

theorem mkBriefTitle_project_keyError (r : RawRecord)
    (h : hasKey r "acronym" = false ∨ hasKey r "name" = false) :
    mkBriefTitle .PROJECT r = .error .keyError := by
  unfold mkBriefTitle
  rcases h with ha | hn
  · unfold rawIndex
    rw [hasKey_false_elim r "acronym" ha]
    rfl
  · cases hlk : rawLookup r "acronym" with
    | none =>
        unfold rawIndex
        rw [hlk]
        rfl
    | some av =>
        rw [rawIndex_of_lookup r "acronym" av hlk]
        simp only [exceptBindOk]
        unfold rawIndex
        rw [hasKey_false_elim r "name" hn]
        rfl

theorem listBriefOne_title_error (t : PdnResourceType) (r : RawRecord) (e : PyErr)
    (h : mkBriefTitle t r = .error e) : listBriefOne t r = .error e := by
  unfold listBriefOne
  rw [h]
  rfl

theorem list_brief_resources_error_of_bad (w : PdnHarvesterWorker) (t : PdnResourceType)
    (off : Nat) (r : RawRecord) (hsl : w.should_list t = true)
    (hr : r ∈ w.get_paginated_resources t off)
    (hbad : listBriefOne t r = .error PyErr.keyError) :
    ∃ e, w.list_brief_resources t off = .error e := by
  unfold PdnHarvesterWorker.list_brief_resources
  rw [if_pos hsl]
  cases hp : w.params_for t with
  | error e => exact ⟨e, rfl⟩
  | ok prm =>
      simp only [exceptBindOk]
      exact exceptMapList_error (listBriefOne t) _
        ⟨r, hr, fun y hy => by rw [hbad] at hy; cases hy⟩

/-- C10: title construction indexes the required raw fields directly, so a
fetched record missing subject (alert), name or title (expert), title
(news), or acronym or name (project) makes the whole page listing raise,
whereas the corresponding reconcilers tolerate those same absences through
defaults. -/
theorem pdn_title_keyerror_vs_reconciliation :
    (∀ (w : PdnHarvesterWorker) off r, w.should_list .ALERT = true →
      r ∈ w.get_paginated_resources .ALERT off → hasKey r "subject" = false →
      ∃ e, w.list_brief_resources .ALERT off = .error e) ∧
    (∀ (w : PdnHarvesterWorker) off r, w.should_list .EXPERT = true →
      r ∈ w.get_paginated_resources .EXPERT off →
      (hasKey r "name" = false ∨ hasKey r "title" = false) →
      ∃ e, w.list_brief_resources .EXPERT off = .error e) ∧
    (∀ (w : PdnHarvesterWorker) off r, w.should_list .NEWS_ARTICLE = true →
      r ∈ w.get_paginated_resources .NEWS_ARTICLE off → hasKey r "title" = false →
      ∃ e, w.list_brief_resources .NEWS_ARTICLE off = .error e) ∧
    (∀ (w : PdnHarvesterWorker) off r, w.should_list .PROJECT = true →
      r ∈ w.get_paginated_resources .PROJECT off →
      (hasKey r "acronym" = false ∨ hasKey r "name" = false) →
      ∃ e, w.list_brief_resources .PROJECT off = .error e) ∧
    (∀ r, hasKey r "id" = true → hasKey r "daterecieved" = false →
      ∃ row, updateAlertRecord r = .ok row ∧
        row.subject = rawGetD r "subject" (JsonValue.str "")) ∧
    (∀ r, hasKey r "id" = true →
      ∃ row, updateExpertRecord r = .ok row ∧
        row.name = rawGetD r "name" (JsonValue.str "") ∧
        row.title = rawGetD r "title" (JsonValue.str "")) ∧
    (∀ r, hasKey r "id" = true → hasKey r "date" = false →
      ∃ row, updateNewsRecord r = .ok row ∧
        row.title = rawGetD r "title" (JsonValue.str "")) ∧
    (∀ r, hasKey r "id" = true →
      ∃ row, updateProjectRecord r = .ok row ∧
        row.acronym = rawGetD r "acronym" (JsonValue.str "") ∧
        row.name = rawGetD r "name" (JsonValue.str "")) := by
  refine ⟨?_, ?_, ?_, ?_, ?_, ?_, ?_, ?_⟩
  · intro w off r hsl hr hmiss
    exact list_brief_resources_error_of_bad w .ALERT off r hsl hr
      (listBriefOne_title_error .ALERT r .keyError (mkBriefTitle_alert_keyError r hmiss))
  · intro w off r hsl hr hmiss
    exact list_brief_resources_error_of_bad w .EXPERT off r hsl hr
      (listBriefOne_title_error .EXPERT r .keyError (mkBriefTitle_expert_keyError r hmiss))
  · intro w off r hsl hr hmiss
    exact list_brief_resources_error_of_bad w .NEWS_ARTICLE off r hsl hr
      (listBriefOne_title_error .NEWS_ARTICLE r .keyError (mkBriefTitle_news_keyError r hmiss))
  · intro w off r hsl hr hmiss
    exact list_brief_resources_error_of_bad w .PROJECT off r hsl hr
      (listBriefOne_title_error .PROJECT r .keyError (mkBriefTitle_project_keyError r hmiss))
  · intro r hid hdate
    obtain ⟨idv, hidv⟩ := hasKey_elim r "id" hid
    have hrec : updateAlertRecord r = .ok ⟨idv, rawGetD r "content" (JsonValue.str ""),
        rawGetD r "countries" (JsonValue.str ""), none,
        rawGetD r "ignore" (JsonValue.bool false), rawGetD r "subject" (JsonValue.str ""),
        rawGetD r "uuid" (JsonValue.str ""), rawGetD r "source_id" (JsonValue.num 0)⟩ := by
      unfold updateAlertRecord
      rw [parseOptionalDateField_of_none r "daterecieved"
        (hasKey_false_elim r "daterecieved" hdate)]
      simp only [exceptBindOk]
      rw [rawIndex_of_lookup r "id" idv hidv]
      rfl
    exact ⟨_, hrec, rfl⟩
  · intro r hid
    obtain ⟨idv, hidv⟩ := hasKey_elim r "id" hid
    have hrec : updateExpertRecord r = .ok ⟨idv, rawGetD r "name" (JsonValue.str ""),
        rawGetD r "title" (JsonValue.str ""), rawGetD r "country" (JsonValue.str ""),
        pyOr (rawGetD r "country_code" .null) (.str ""),
        rawGetD r "email" (JsonValue.str ""), rawGetD r "ministry" (JsonValue.str ""),
        pyOr (rawGetD r "country_id" .null) (.str "")⟩ := by
      unfold updateExpertRecord
      rw [rawIndex_of_lookup r "id" idv hidv]
      rfl
    exact ⟨_, hrec, rfl, rfl⟩
  · intro r hid hdate
    obtain ⟨idv, hidv⟩ := hasKey_elim r "id" hid
    have hrec : updateNewsRecord r = .ok ⟨idv, rawGetD r "source_id" (JsonValue.num 0),
        rawGetD r "title" (JsonValue.str ""), rawGetD r "url" (JsonValue.str ""),
        rawGetD r "country" (JsonValue.str ""),
        pyOr (rawGetD r "country_code" .null) (.str ""), none,
        rawGetD r "source" (JsonValue.str "")⟩ := by
      unfold updateNewsRecord
      rw [parseOptionalDateField_of_none r "date" (hasKey_false_elim r "date" hdate)]
      simp only [exceptBindOk]
      rw [rawIndex_of_lookup r "id" idv hidv]
      rfl
    exact ⟨_, hrec, rfl⟩
  · intro r hid
    obtain ⟨idv, hidv⟩ := hasKey_elim r "id" hid
    have hrec : updateProjectRecord r = .ok ⟨idv, rawGetD r "name" (JsonValue.str ""),
        rawGetD r "acronym" (JsonValue.str ""), rawGetD r "description" (JsonValue.str ""),
        rawGetD r "logo_url" (JsonValue.str ""), rawGetD r "url" (JsonValue.str ""),
        rawGetD r "active" (JsonValue.bool false)⟩ := by
      unfold updateProjectRecord
      rw [rawIndex_of_lookup r "id" idv hidv]
      rfl
    exact ⟨_, hrec, rfl, rfl⟩

/-- A worker whose only enabled collection is news, holding one record that
lacks the title field required during enumeration. -/
def wBadNews : PdnHarvesterWorker :=
  ⟨false, false, false, true, false, 10, none, none, none, none, none, none, none, none,
   ⟨[], [], [], [[("id", JsonValue.num 5)]], []⟩⟩

theorem pdn_title_keyerror_vs_reconciliation_witness :
    (wBadNews.should_list .NEWS_ARTICLE = true ∧
      [("id", JsonValue.num 5)] ∈ wBadNews.get_paginated_resources .NEWS_ARTICLE 0 ∧
      hasKey [("id", JsonValue.num 5)] "title" = false ∧
      ∃ e, wBadNews.list_brief_resources .NEWS_ARTICLE 0 = .error e) ∧
    (∃ row, updateNewsRecord [("id", JsonValue.num 5)] = .ok row ∧
      row.title = rawGetD [("id", JsonValue.num 5)] "title" (JsonValue.str "")) :=
  ⟨⟨rfl, by decide, rfl,
    pdn_title_keyerror_vs_reconciliation.2.2.1 wBadNews 0 [("id", JsonValue.num 5)]
      rfl (by decide) rfl⟩,
    pdn_title_keyerror_vs_reconciliation.2.2.2.2.2.2.1 [("id", JsonValue.num 5)] rfl rfl⟩
